import Mathlib

set_option maxRecDepth 3000

/-!
Shallow embedding of the `bancos-reader` extraction core.

The repository extracts transaction records from bank-statement documents in
two layouts: a positional (debit/checking) extractor in `src/parsers/bbva.py`
and a line-pattern (credit-card) extractor in `src/parsers/bbva_tc.py`.
This file embeds the data model and the operations of both extractors as
executable Lean definitions, translated from the Python source, and proves
properties of them.

Modelling conventions:
* Python `float` values are modelled as exact rationals (`ℚ`): the inputs the
  pipeline feeds `float()` are plain decimal literals, whose rounded doubles
  compare (sign, order, equality at the printed precision) exactly like the
  rationals they denote.
* pdfplumber coordinates are modelled as `ℚ`.
* Text is ASCII plus the accented Spanish letters appearing in the source's
  string constants; `str.upper` is modelled on that alphabet.
* The Extraction Adapter (pdfplumber) is abstracted as the per-page data it
  returns: a page text and a positioned word list.
-/

namespace BancosReader

/-- Python whitespace characters as used by `str.split`, `str.strip` and the
regex class `\s` (ASCII range plus the no-break space that the credit-card
parser explicitly replaces). -/
def isPySpace (c : Char) : Bool :=
  c = ' ' || c = '\t' || c = '\n' || c = '\r' || c = '\x0B' || c = '\x0C' || c = ' '

/-- Python `str.upper` on the alphabet occurring in these documents:
ASCII letters plus the accented Spanish lowercase letters. -/
def pyUpperChar (c : Char) : Char :=
  if 'a' ≤ c ∧ c ≤ 'z' then Char.ofNat (c.toNat - 32)
  else if c = 'á' then 'Á' else if c = 'é' then 'É' else if c = 'í' then 'Í'
  else if c = 'ó' then 'Ó' else if c = 'ú' then 'Ú' else if c = 'ñ' then 'Ñ'
  else c

/-- Python `str.upper` lifted to strings. -/
def pyUpper (s : String) : String := ⟨s.data.map pyUpperChar⟩

/-- Python `str.strip()` (no arguments): drop leading and trailing whitespace. -/
def pyStrip (s : String) : String :=
  ⟨((s.data.dropWhile isPySpace).reverse.dropWhile isPySpace).reverse⟩

/-- Whether the first list is a prefix of the second (Python `str.startswith`
on char lists). -/
def listStarts : List Char → List Char → Bool
  | [], _ => true
  | _ :: _, [] => false
  | a :: as, b :: bs => a = b && listStarts as bs

/-- Python `a.startswith(b)`. -/
def strStarts (s pre : String) : Bool := listStarts pre.data s.data

/-- Whether `pat` occurs as a contiguous sublist (Python `pat in s` over chars). -/
def listContainsSub (pat : List Char) : List Char → Bool
  | [] => listStarts pat []
  | c :: rest => listStarts pat (c :: rest) || listContainsSub pat rest

/-- Python `pat in s` for strings. -/
def strContains (s pat : String) : Bool := listContainsSub pat.data s.data

/-- Python `s.replace(c, "")` for a single character `c`. -/
def removeChar (c : Char) (s : String) : String := ⟨s.data.filter (fun x => x ≠ c)⟩

/-- Python `s.replace(a, b)` for single characters. -/
def mapChar (a b : Char) (s : String) : String :=
  ⟨s.data.map (fun c => if c = a then b else c)⟩

/-- Python `str.split()` with no separator: split on whitespace runs, no empty
pieces.  The accumulator holds the current word reversed. -/
def splitWsAux : List Char → List Char → List (List Char)
  | [], cur => if cur.isEmpty then [] else [cur.reverse]
  | c :: cs, cur =>
    if isPySpace c then
      if cur.isEmpty then splitWsAux cs [] else cur.reverse :: splitWsAux cs []
    else splitWsAux cs (c :: cur)

/-- Python `str.split()` on a string. -/
def pySplitWs (s : String) : List String := (splitWsAux s.data []).map (fun l => ⟨l⟩)

/-- Split a character list at every occurrence of `c` (Python `s.split(c)`:
`n` separators give `n+1` pieces, empty pieces included). -/
def splitOnChar (c : Char) : List Char → List (List Char)
  | [] => [[]]
  | x :: xs =>
    if x = c then [] :: splitOnChar c xs
    else
      match splitOnChar c xs with
      | [] => [[x]]
      | h :: t => (x :: h) :: t

/-- Python `str.splitlines()` modelled for newline-separated text (the only
line boundary pdfplumber emits): split at `'\n'`, except that an empty string
gives no lines and a trailing newline produces no trailing empty line. -/
def pySplitLines (s : String) : List String :=
  if s = "" then []
  else
    let parts := (splitOnChar '\n' s.data).map (fun l => (⟨l⟩ : String))
    if parts.getLast? = some "" then parts.dropLast else parts

/-- Numeric value of an ASCII digit. -/
def digitVal (c : Char) : ℕ := c.toNat - '0'.toNat

/-- Value of a big-endian ASCII digit list. -/
def natOfDigits (ds : List Char) : ℕ := ds.foldl (fun n c => 10 * n + digitVal c) 0

/-!
Rational arithmetic helpers.  The standard field operations on `ℚ` are
`@[irreducible]` and their instance paths are too deep for kernel evaluation,
so the model computes through the `Rat` primitives (`Rat.divInt`, `Rat.blt`,
`Rat.neg`, the `num`/`den` fields), each proved equal to the corresponding
standard operation below; the statements of the claims use the standard
operations.
-/

/-- Equality of rationals decided through the `num`/`den` fields (they are
kept reduced by the `Rat` invariant, so this agrees with propositional
equality); registered with high priority so that evaluation of ground
equalities stays shallow. -/
instance (priority := 2000) instQDecEqFast : DecidableEq ℚ := fun a b =>
  if h : a.num = b.num ∧ a.den = b.den then
    isTrue (by rcases a with ⟨n1, d1, h1, h2⟩; rcases b with ⟨n2, d2, h3, h4⟩; simp_all)
  else
    isFalse (fun he => h (by subst he; exact ⟨rfl, rfl⟩))

/-- Force a natural number to literal form by matching on it; semantically
the identity (see `natForce_eq`), it keeps kernel evaluation of ground
arithmetic flat. -/
def natForce : ℕ → ℕ
  | 0 => 0
  | m + 1 => m + 1

/-- Force an integer to literal form; semantically the identity
(see `intForce_eq`). -/
def intForce : ℤ → ℤ
  | .ofNat n => .ofNat (natForce n)
  | .negSucc n => .negSucc (natForce n)

/-- Build `n / d` as a rational (`Rat.divInt` on forced arguments). -/
def qmk (n d : ℤ) : ℚ := Rat.divInt (intForce n) (intForce d)

/-- Addition on `ℚ` (equals `a + b`, see `qadd_eq`). -/
def qadd (a b : ℚ) : ℚ :=
  qmk (a.num * Int.ofNat b.den + b.num * Int.ofNat a.den) (Int.ofNat (a.den * b.den))

/-- Subtraction on `ℚ` (equals `a - b`, see `qsub_eq`). -/
def qsub (a b : ℚ) : ℚ :=
  qmk (a.num * Int.ofNat b.den - b.num * Int.ofNat a.den) (Int.ofNat (a.den * b.den))

/-- Halving on `ℚ` (equals `a / 2`, see `qhalf_eq`). -/
def qhalf (a : ℚ) : ℚ := qmk a.num (Int.ofNat (2 * a.den))

/-- Absolute value on `ℚ` (equals `|a|`, see `qabs_eq`). -/
def qabs (a : ℚ) : ℚ := if a.num < 0 then Rat.neg a else a

/-- Strict comparison on `ℚ` as a boolean (equals `a < b`, see `qlt_iff`). -/
def qlt (a b : ℚ) : Bool := Rat.blt a b

/-- Non-strict comparison on `ℚ` as a boolean (equals `a ≤ b`, see `qle_iff`). -/
def qle (a b : ℚ) : Bool := !(Rat.blt b a)

/-- Negativity test on `ℚ` (equals `a < 0`, see `esNeg_iff`). -/
def esNeg (a : ℚ) : Bool := decide (a.num < 0)

/-- The rational value of a decimal literal: sign, integer digits, fraction
digits; `decValue neg ip fp = ±(ip + fp / 10^|fp|)` (see `decValue_eq`). -/
def decValue (neg : Bool) (ip fp : List Char) : ℚ :=
  let n : ℤ := Int.ofNat (natOfDigits ip * 10 ^ fp.length + natOfDigits fp)
  qmk (if neg then Int.neg n else n) (Int.ofNat (10 ^ fp.length))

/-- Models Python `float(s)` restricted to plain decimal literals
(optional sign, digits, optional single dot, at least one digit), the only
shapes this pipeline ever passes it; the value is the exact rational. -/
def pyFloat (s : String) : Option ℚ :=
  let neg : Bool := decide (s.data.head? = some '-')
  let body : List Char :=
    if s.data.head? = some '-' ∨ s.data.head? = some '+' then s.data.tail else s.data
  let intp := body.takeWhile Char.isDigit
  let rest := body.dropWhile Char.isDigit
  match rest with
  | [] =>
    if intp.isEmpty then none
    else some (decValue neg intp [])
  | '.' :: frac =>
    if frac.all Char.isDigit && decide (0 < intp.length + frac.length) then
      some (decValue neg intp frac)
    else none
  | _ => none

/-- `_limpiar_monto` from `src/parsers/bbva.py` (positional variant).
The `valor is None` guard of the Python function is dropped: the extractor
only ever passes strings, and `str` on a string is the identity. -/
def limpiarMontoBBVA (valor : String) : Option ℚ :=
  let txt := pyStrip valor
  if txt = "" ∨ txt = "-" then none
  else
    let txt1 := removeChar ' ' (removeChar '$' txt)
    let txt2 :=
      if txt1.data.contains ',' && txt1.data.contains '.' then removeChar ',' txt1
      else if txt1.data.contains ',' && !(txt1.data.contains '.') then
        mapChar ',' '.' (removeChar '.' txt1)
      else txt1
    if txt2.data.count '-' = 1 ∧ strStarts txt2 "-" then pyFloat (removeChar '-' txt2)
    else pyFloat txt2

/-- The final sign-and-parse step of `_limpiar_monto` in `src/parsers/bbva.py`
(lines 30-33), on the separator-normalized string: a single leading minus is
stripped before the float parse, any other string is parsed as is. -/
def quitarMenosYParsear (txt2 : String) : Option ℚ :=
  if txt2.data.count '-' = 1 ∧ strStarts txt2 "-" then pyFloat (removeChar '-' txt2)
  else pyFloat txt2

/-- `_limpiar_monto` from `src/parsers/bbva_tc.py` (line-pattern variant). -/
def limpiarMontoTC (txt : String) : Option ℚ :=
  let s := removeChar ' ' (removeChar '$' (pyStrip txt))
  if s = "" then none
  else
    let s1 :=
      if s.data.contains ',' && s.data.contains '.' then removeChar ',' s
      else if s.data.contains ',' && !(s.data.contains '.') then
        mapChar ',' '.' (removeChar '.' s)
      else s
    pyFloat s1

/-- `_mes_str_a_num` from `src/parsers/bbva.py`: 3-letter Spanish month
abbreviation to month number, unknown abbreviations map to `"01"`. -/
def mesStrANum (mes : String) : String :=
  let m := pyUpper mes
  if m = "ENE" then "01" else if m = "FEB" then "02" else if m = "MAR" then "03"
  else if m = "ABR" then "04" else if m = "MAY" then "05" else if m = "JUN" then "06"
  else if m = "JUL" then "07" else if m = "AGO" then "08" else if m = "SEP" then "09"
  else if m = "OCT" then "10" else if m = "NOV" then "11" else if m = "DIC" then "12"
  else "01"

/-- ASCII uppercase letter test (the regex class `[A-Z]`). -/
def isUpperAZ (c : Char) : Bool := 'A' ≤ c && c ≤ 'Z'

/-- Fullmatch of `PATRON_FECHA = \d{2}/[A-Z]{3}` from `src/parsers/bbva.py`. -/
def patronFechaMatch (s : String) : Bool :=
  match s.data with
  | [a, b, c, d, e, f] =>
    a.isDigit && b.isDigit && c = '/' && isUpperAZ d && isUpperAZ e && isUpperAZ f
  | _ => false

/-- Fullmatch of `PATRON_MONTO = ^[\d,]+\.\d{2}$` from `src/parsers/bbva.py`:
a nonempty run of digits and commas, a dot, then exactly two digits. -/
def patronMontoMatch (s : String) : Bool :=
  match s.data.reverse with
  | d2 :: d1 :: '.' :: front =>
    d1.isDigit && d2.isDigit && !front.isEmpty &&
      front.all (fun c => c.isDigit || c = ',')
  | _ => false

/-- `BBVAParser._parse_fecha`: converts `'01/JUL'` plus a statement year into
ISO `YYYY-MM-DD`; with no year the default `"2025"` is used; input that does
not match `^(\d{2})/([A-Z]{3})$` is returned unchanged (stripped, uppercased). -/
def parseFecha (fechaDdmes : String) (anio : Option String) : String :=
  let anioV := match anio with | some a => a | none => "2025"
  let f := pyUpper (pyStrip fechaDdmes)
  match f.data with
  | [a, b, c, d, e, g] =>
    if a.isDigit && b.isDigit && c = '/' && isUpperAZ d && isUpperAZ e && isUpperAZ g then
      anioV ++ "-" ++ mesStrANum ⟨[d, e, g]⟩ ++ "-" ++ ⟨[a, b]⟩
    else f
  | _ => f

/-- Number of days in a month (proleptic Gregorian, as `datetime` uses). -/
def daysInMonth (y m : ℕ) : ℕ :=
  if m = 2 then (if (y % 4 = 0 ∧ y % 100 ≠ 0) ∨ y % 400 = 0 then 29 else 28)
  else if m = 4 ∨ m = 6 ∨ m = 9 ∨ m = 11 then 30 else 31

/-- Calendar validity of a (year, month, day) triple. -/
def validDate (y m d : ℕ) : Bool :=
  1 ≤ m && m ≤ 12 && 1 ≤ d && d ≤ daysInMonth y m

/-- Two-digit year pivot of the `%y` format used by the date inference
of `pd.to_datetime`: 00–68 map into the 2000s, 69–99 into the 1900s. -/
def pivotYear (n : ℕ) : ℕ := if n ≤ 68 then 2000 + n else 1900 + n

/-- Chronological encoding of a date triple. -/
def dateKey : ℕ × ℕ × ℕ → ℕ
  | (y, m, d) => y * 10000 + m * 100 + d

/-- Whether a date fits in the nanosecond `pd.Timestamp` range
(1677-09-22 … 2262-04-11); out-of-range dates coerce to `NaT`. -/
def tsInBounds (y m d : ℕ) : Bool :=
  dateKey (1677, 9, 22) ≤ dateKey (y, m, d) && dateKey (y, m, d) ≤ dateKey (2262, 4, 11)

/-- `_parse_fecha_tc` from `src/parsers/bbva_tc.py`, as a date triple rather
than the formatted string: models `pd.to_datetime(s, errors="coerce",
dayfirst=True)` on the `\d{2}/\d{2}/\d{2,4}` inputs the extractor supplies
(every other input of the pipeline is empty): day-first reading preferred,
month-first fallback when the day-first reading is not a valid date, `none`
when neither is valid or the date is outside the Timestamp range. -/
def parseFechaTCDate (s : String) : Option (ℕ × ℕ × ℕ) :=
  let s1 := pyStrip s
  if s1 = "" then none
  else
    match splitOnChar '/' s1.data with
    | [a, b, c] =>
      if a.all Char.isDigit && b.all Char.isDigit && c.all Char.isDigit
          && a.length = 2 && b.length = 2 && 2 ≤ c.length && c.length ≤ 4 then
        let d := natOfDigits a
        let m := natOfDigits b
        let y := if c.length = 2 then pivotYear (natOfDigits c) else natOfDigits c
        let cand : Option (ℕ × ℕ × ℕ) :=
          if validDate y m d then some (y, m, d)
          else if validDate y d m then some (y, d, m)
          else none
        match cand with
        | some (y1, m1, d1) => if tsInBounds y1 m1 d1 then some (y1, m1, d1) else none
        | none => none
      else none
    | _ => none

/-- Zero-padded two-digit decimal rendering. -/
def pad2 (n : ℕ) : String := if n < 10 then "0" ++ toString n else toString n

/-- Zero-padded four-digit decimal rendering (`strftime %Y`). -/
def pad4 (n : ℕ) : String :=
  if n < 10 then "000" ++ toString n
  else if n < 100 then "00" ++ toString n
  else if n < 1000 then "0" ++ toString n
  else toString n

/-- `strftime("%Y-%m-%d")` on a date triple. -/
def fechaISO : ℕ × ℕ × ℕ → String
  | (y, m, d) => pad4 y ++ "-" ++ pad2 m ++ "-" ++ pad2 d

/-- `_parse_fecha_tc` from `src/parsers/bbva_tc.py`: ISO string or `none`. -/
def parseFechaTC (s : String) : Option String := (parseFechaTCDate s).map fechaISO

/-- Models `pd.to_datetime(column, errors="coerce")` applied to the
settlement-date column at the end of `BBVATCParser.parse_movimientos`: the
ISO `YYYY-MM-DD` strings produced by the normalizer parse to their date; the
raw fallback strings kept when the day-first parse failed admit no valid
calendar reading, so they coerce to `NaT` (`none`). -/
def coerceFecha (s : String) : Option (ℕ × ℕ × ℕ) :=
  match splitOnChar '-' s.data with
  | [a, b, c] =>
    if a.all Char.isDigit && b.all Char.isDigit && c.all Char.isDigit
        && a.length = 4 && b.length = 2 && c.length = 2 then
      let y := natOfDigits a
      let m := natOfDigits b
      let d := natOfDigits c
      if validDate y m d && tsInBounds y m d then some (y, m, d) else none
    else none
  | _ => none

/-! ### A small regular-expression engine

The credit-card parser matches whole lines against two anchored patterns and
the positional parser searches the cover page for a statement-period phrase.
Every repetition in those patterns repeats a single character class, so the
engine below supports exactly that shape.  Matching follows Python `re`
backtracking order: alternatives of a greedy repetition are tried longest
first, of a lazy repetition shortest first, and the first complete match
wins; for character-class repetitions this is precisely an enumeration of
repetition lengths. -/

/-- Regular expressions over character classes: a single class character, a
bounded or unbounded class repetition (greedy or lazy), a capture group, a
sequence, the empty pattern and the end anchor `$`. -/
inductive RE where
  | cls (p : Char → Bool)
  | rep (p : Char → Bool) (lo : ℕ) (hi : Option ℕ) (greedy : Bool)
  | grp (i : ℕ) (r : RE)
  | sq (a b : RE)
  | eps
  | eos

/-- Length of the maximal leading run of class characters. -/
def runLen (p : Char → Bool) : List Char → ℕ
  | [] => 0
  | c :: cs => if p c then runLen p cs + 1 else 0

/-- Candidate consumption lengths of a repetition, in backtracking order:
`m` is the maximal available run; greedy repetitions try longer first, lazy
ones shorter first, always within `[lo, min hi m]`. -/
def repLens (lo : ℕ) (hi : Option ℕ) (greedy : Bool) (m : ℕ) : List ℕ :=
  let top := match hi with | none => m | some h => min h m
  if lo > top then []
  else if greedy then (List.range (top - lo + 1)).map (fun i => top - i)
  else (List.range (top - lo + 1)).map (fun i => lo + i)

/-- Record the span consumed by capture group `i`. -/
def setCap (i : ℕ) (v : String) (caps : List (ℕ × String)) : List (ℕ × String) :=
  (i, v) :: caps

/-- Backtracking matcher in continuation style: `mre r s caps k` tries the
ways `r` can consume a prefix of `s`, in Python backtracking order, calling
the continuation `k` on the remainder; the first success wins. -/
def mre : RE → List Char → List (ℕ × String) →
    (List Char → List (ℕ × String) → Option (List (ℕ × String))) →
    Option (List (ℕ × String))
  | .cls p, s, caps, k =>
    match s with
    | [] => none
    | c :: rest => if p c then k rest caps else none
  | .rep p lo hi greedy, s, caps, k =>
    (repLens lo hi greedy (runLen p s)).findSome? (fun n => k (s.drop n) caps)
  | .grp i r, s, caps, k =>
    mre r s caps (fun s1 caps1 => k s1 (setCap i ⟨s.take (s.length - s1.length)⟩ caps1))
  | .sq a b, s, caps, k => mre a s caps (fun s1 caps1 => mre b s1 caps1 k)
  | .eps, s, caps, k => k s caps
  | .eos, s, caps, k => if s.isEmpty then k s caps else none

/-- Python `rx.match(s)` for an (internally) `$`-anchored pattern: match at
the start of the string, returning the captures of the first match. -/
def reMatch (r : RE) (s : String) : Option (List (ℕ × String)) :=
  mre r s.data [] (fun _ caps => some caps)

/-- Python `re.search`: try a match at each successive start position. -/
def reSearch (r : RE) : List Char → Option (List (ℕ × String))
  | [] => mre r [] [] (fun _ caps => some caps)
  | c :: rest =>
    match mre r (c :: rest) [] (fun _ caps => some caps) with
    | some caps => some caps
    | none => reSearch r rest

/-- Sequence a list of patterns. -/
def reCat (rs : List RE) : RE := rs.foldr RE.sq RE.eps

/-- Exactly `n` digits (`\d{n}`). -/
def reD (n : ℕ) : RE := .rep Char.isDigit n (some n) true

/-- A literal character. -/
def reLit (c : Char) : RE := .cls (fun x => x = c)

/-- Group lookup by index; unset groups give `""` (no pattern here places an
optional group, so every group of a successful match is set). -/
def capGet (caps : List (ℕ × String)) (i : ℕ) : String := (caps.lookup i).getD ""

/-! ### Line-pattern (credit-card) extractor, `src/parsers/bbva_tc.py` -/

/-- The class `[A-ZÑ&]` of the tax-id pattern. -/
def clsRfc1 (c : Char) : Bool := isUpperAZ c || c = 'Ñ' || c = '&'

/-- The class `[0-9A-Z]` of the tax-id pattern. -/
def clsRfc2 (c : Char) : Bool := c.isDigit || isUpperAZ c

/-- The class `[\*Xx\d]` of the masked-reference pattern. -/
def clsRef (c : Char) : Bool := c = '*' || c = 'X' || c = 'x' || c.isDigit

/-- The class `[\d,]` of the amount pattern. -/
def clsDigComma (c : Char) : Bool := c.isDigit || c = ','

/-- The class `.` (any character but newline; normalized lines contain none). -/
def clsDot (c : Char) : Bool := c ≠ '\n'

/-- A captured date `(\d{2}/\d{2}/\d{2,4})` as group `i`. -/
def reFechaGrp (i : ℕ) : RE :=
  .grp i (reCat [reD 2, reLit '/', reD 2, reLit '/', .rep Char.isDigit 2 (some 4) true])

/-- One or more whitespace characters (`\s+`). -/
def reWs1 : RE := .rep isPySpace 1 none true

/-- The captured signed amount `(-?[\d,]+\.\d{2})` as group `i`. -/
def reMontoGrp (i : ℕ) : RE :=
  .grp i (reCat [.rep (fun c => c = '-') 0 (some 1) true,
    .rep clsDigComma 1 none true, reLit '.', reD 2])

/-- `rx_con_rfc` from `BBVATCParser.parse_movimientos`: two dates, a lazy
free-text description, a 3-letter + 8–12 alphanumeric tax-id pair, a masked
reference token and a signed amount after `$`.  Groups: 1 = f1, 2 = f2,
3 = concepto, 4 = rfc1, 5 = rfc2, 6 = ref, 7 = monto. -/
def rxConRfc : RE := reCat [
  reFechaGrp 1, reWs1,
  reFechaGrp 2, reWs1,
  .grp 3 (.rep clsDot 1 none false), reWs1,
  .grp 4 (.rep clsRfc1 3 (some 3) true), reWs1,
  .grp 5 (.rep clsRfc2 8 (some 12) true), reWs1,
  .grp 6 (.rep clsRef 4 none true), reWs1,
  reLit '$', .rep isPySpace 0 none true,
  reMontoGrp 7,
  .rep isPySpace 0 none true, .eos]

/-- `rx_sin_rfc` from `BBVATCParser.parse_movimientos`: as `rx_con_rfc`
without the tax-id pair.  Groups: 1 = f1, 2 = f2, 3 = concepto, 6 = ref,
7 = monto. -/
def rxSinRfc : RE := reCat [
  reFechaGrp 1, reWs1,
  reFechaGrp 2, reWs1,
  .grp 3 (.rep clsDot 1 none false), reWs1,
  .grp 6 (.rep clsRef 4 none true), reWs1,
  reLit '$', .rep isPySpace 0 none true,
  reMontoGrp 7,
  .rep isPySpace 0 none true, .eos]

/-- The fields read off a successful line match (after the per-group
`.strip()` calls of the source; `rfc` is the joined stripped pair for the
tax-id pattern and `""` for the pattern without it). -/
structure MatchTC where
  f1 : String
  f2 : String
  concepto : String
  rfc : String
  ref : String
  monto : String
deriving DecidableEq

/-- The regex step of the line loop: try `rx_con_rfc`, then `rx_sin_rfc`
(lines 146–165 of `src/parsers/bbva_tc.py`). -/
def matchLineaTC (line : String) : Option MatchTC :=
  match reMatch rxConRfc line with
  | some caps =>
    some { f1 := capGet caps 1, f2 := capGet caps 2,
           concepto := pyStrip (capGet caps 3),
           rfc := pyStrip (pyStrip (capGet caps 4) ++ " " ++ pyStrip (capGet caps 5)),
           ref := pyStrip (capGet caps 6),
           monto := pyStrip (capGet caps 7) }
  | none =>
    match reMatch rxSinRfc line with
    | some caps =>
      some { f1 := capGet caps 1, f2 := capGet caps 2,
             concepto := pyStrip (capGet caps 3),
             rfc := "",
             ref := pyStrip (capGet caps 6),
             monto := pyStrip (capGet caps 7) }
    | none => none

/-- `_norm_line` from `src/parsers/bbva_tc.py`: replace no-break spaces,
then collapse all whitespace runs to single spaces. -/
def normLine (line : String) : String :=
  String.intercalate " "
    (pySplitWs ⟨line.data.map (fun c => if c = ' ' then ' ' else c)⟩)

/-- The `stop_markers` list of `BBVATCParser.parse_movimientos`. -/
def stopMarkers : List String :=
  ["TABLA / GRAFICO DE ESTADO DE CUENTA",
   "TABLA / GRÁFICO DE ESTADO DE CUENTA",
   "TABLA/GRAFICO DE ESTADO DE CUENTA",
   "TABLA/GRÁFICO DE ESTADO DE CUENTA"]

/-- The `skip_starts` tuple of `BBVATCParser.parse_movimientos`. -/
def skipStarts : List String :=
  ["ESTADO DE CUENTA", "PAGINA", "LINEA BBVA", "AV. PASEO", "BBVA MEXICO",
   "ESTIMADO TARJETAHABIENTE", "IVA", "\"SI ESTAS ADHERIDO", "SI ESTAS ADHERIDO"]

/-- Whether a line triggers the document-wide stop (any stop marker occurs
in the uppercased line). -/
def esStopTC (line : String) : Bool :=
  stopMarkers.any (fun m => strContains (pyUpper line) m)

/-- The skip tests of the line loop on the uppercased line: the boilerplate
start patterns and the two table-header restatement tests. -/
def esSkipTC (up : String) : Bool :=
  skipStarts.any (fun p => strStarts up p)
  || (strContains up "FECHA" && strContains up "AUTORIZACION" && strContains up "APLICACION")
  || (strContains up "IMPORTE" && (strContains up "CARGOS" || strContains up "ABONOS"))

/-- A transaction record as the row dicts built by both extractors (the
DataFrame row layout); monetary fields are nullable. -/
structure Mov where
  fechaOperacion : String
  fechaLiquidacion : String
  codigo : String
  descripcion : String
  cargos : Option ℚ
  abonos : Option ℚ
  saldoOperacion : Option ℚ
  saldoLiquidacion : Option ℚ
  detalle : String
  cuenta : String
  moneda : String
  origenPdf : String
  pagina : ℕ
deriving DecidableEq

/-- The record-building tail of the line loop (lines 146–202 of
`src/parsers/bbva_tc.py`): regex match, date normalization with raw-string
fallback (`_parse_fecha_tc(f) or f`), mandatory amount parse, sign-based
charge/credit classification and detail assembly.  Returns `none` when the
line matches neither pattern or its amount does not parse. -/
def procesarLineaTC (cuenta moneda origen : String) (pagina : ℕ) (line : String) :
    Option Mov :=
  match matchLineaTC line with
  | none => none
  | some g =>
    let fechaOp := match parseFechaTC g.f1 with | some f => f | none => g.f1
    let fechaLiq := match parseFechaTC g.f2 with | some f => f | none => g.f2
    match limpiarMontoTC g.monto with
    | none => none
    | some monto =>
      let cargos : Option ℚ := if esNeg monto then none else some monto
      let abonos : Option ℚ := if esNeg monto then some (Rat.neg monto) else none
      let detalleParts :=
        (if g.rfc ≠ "" then ["RFC:" ++ g.rfc] else [])
          ++ (if g.ref ≠ "" then ["REF:" ++ g.ref] else [])
      some { fechaOperacion := fechaOp, fechaLiquidacion := fechaLiq,
             codigo := "", descripcion := g.concepto,
             cargos := cargos, abonos := abonos,
             saldoOperacion := none, saldoLiquidacion := none,
             detalle := pyStrip (String.intercalate " " detalleParts),
             cuenta := cuenta, moneda := moneda, origenPdf := origen,
             pagina := pagina }

/-- The `for line in lines` loop of `BBVATCParser.parse_movimientos` over one
page's normalized lines: skips empty and boilerplate lines, stops the whole
document at a stop marker (second component `true`), appends one record per
matched line whose amount parses. -/
def loopLineasTC (cuenta moneda origen : String) (pagina : ℕ) :
    List String → List Mov → List Mov × Bool
  | [], acc => (acc, false)
  | line :: rest, acc =>
    if line = "" then loopLineasTC cuenta moneda origen pagina rest acc
    else if esStopTC line then (acc, true)
    else if esSkipTC (pyUpper line) then loopLineasTC cuenta moneda origen pagina rest acc
    else
      match procesarLineaTC cuenta moneda origen pagina line with
      | some mov => loopLineasTC cuenta moneda origen pagina rest (acc ++ [mov])
      | none => loopLineasTC cuenta moneda origen pagina rest acc

/-- The normalized line list of one page's extracted text
(`[_norm_line(l) for l in text.splitlines()]`). -/
def pageLines (text : String) : List String := (pySplitLines text).map normLine

/-- The page loop of `BBVATCParser.parse_movimientos`: pages are numbered
from 1; the document-wide stop flag ends the whole loop. -/
def loopPaginasTC (cuenta moneda origen : String) :
    List (ℕ × String) → List Mov → List Mov
  | [], acc => acc
  | (num, text) :: rest, acc =>
    let lines := pageLines text
    if lines.isEmpty then loopPaginasTC cuenta moneda origen rest acc
    else
      match loopLineasTC cuenta moneda origen num lines acc with
      | (acc1, false) => loopPaginasTC cuenta moneda origen rest acc1
      | (acc1, true) => acc1

/-- A credit-card record after the final column coercion
`df["fecha_liquidacion"] = pd.to_datetime(df["fecha_liquidacion"],
errors="coerce")`: the settlement date is now a nullable date. -/
structure MovOut where
  fechaOperacion : String
  fechaLiquidacion : Option (ℕ × ℕ × ℕ)
  codigo : String
  descripcion : String
  cargos : Option ℚ
  abonos : Option ℚ
  saldoOperacion : Option ℚ
  saldoLiquidacion : Option ℚ
  detalle : String
  cuenta : String
  moneda : String
  origenPdf : String
  pagina : ℕ
deriving DecidableEq

/-- Coerce one record's settlement date (the `pd.to_datetime` column step). -/
def movToOut (m : Mov) : MovOut :=
  { fechaOperacion := m.fechaOperacion,
    fechaLiquidacion := coerceFecha m.fechaLiquidacion,
    codigo := m.codigo, descripcion := m.descripcion,
    cargos := m.cargos, abonos := m.abonos,
    saldoOperacion := m.saldoOperacion, saldoLiquidacion := m.saldoLiquidacion,
    detalle := m.detalle, cuenta := m.cuenta, moneda := m.moneda,
    origenPdf := m.origenPdf, pagina := m.pagina }

/-- Sort key of `df.sort_values(by=["fecha_liquidacion", "pagina"],
na_position="last")`: records with a parsed settlement date first (in
chronological order), `NaT` records last, page number as the tie-breaking
second key. -/
def claveOrden (r : MovOut) : ℕ × ℕ × ℕ :=
  match r.fechaLiquidacion with
  | some f => (0, dateKey f, r.pagina)
  | none => (1, 0, r.pagina)

/-- Lexicographic comparison of sort keys. -/
def leKey : ℕ × ℕ × ℕ → ℕ × ℕ × ℕ → Bool
  | (a1, a2, a3), (b1, b2, b3) =>
    Nat.blt a1 b1 || (a1 == b1 && (Nat.blt a2 b2 || (a2 == b2 && Nat.ble a3 b3)))

/-- Record comparison used by the final ordering step. -/
def leMov (a b : MovOut) : Bool := leKey (claveOrden a) (claveOrden b)

/-- The final ordering step of `BBVATCParser.parse_movimientos`: a stable
sort by (settlement date, page) with `NaT` last, as `sort_values` performs
(its multi-key path is a stable lexicographic sort).  A stable sort by a
total preorder has a unique result, so insertion sort by the non-strict key
comparison is exactly it; `reset_index(drop=True)` does not alter the order. -/
def sortMovimientosTC (l : List MovOut) : List MovOut :=
  l.insertionSort (fun a b => leMov a b = true)

/-- `BBVATCParser.parse_movimientos`, with the Extraction Adapter abstracted
as the list of per-page extracted texts and the account/currency/source-name
metadata as parameters. -/
def parseMovimientosTC (cuenta moneda origen : String) (pages : List String) :
    List MovOut :=
  sortMovimientosTC
    ((loopPaginasTC cuenta moneda origen (pages.enumFrom 1) []).map movToOut)

/-! ### Positional (debit/checking) extractor, `src/parsers/bbva.py` -/

/-- A positioned word as pdfplumber's `extract_words` returns it: text with
a bounding box (left x, right x, vertical offset `top`). -/
structure Palabra where
  text : String
  x0 : ℚ
  x1 : ℚ
  top : ℚ
deriving DecidableEq

/-- One page as the Extraction Adapter yields it: plain text and words. -/
structure Pagina where
  text : String
  words : List Palabra
deriving DecidableEq

/-- Horizontal center of a word's bounding box, `(x0 + x1) / 2`. -/
def centro (w : Palabra) : ℚ := qhalf (qadd w.x0 w.x1)

/-- The default row-grouping tolerance `tol=2.0` of `BBVAParser._agrupar_filas`. -/
def tolAgrupar : ℚ := 2

/-- The default header-clustering tolerance `tol_fila=3.0` of
`BBVAParser._detectar_columnas_montos`. -/
def tolFila : ℚ := 3

/-- Comparison by `(top, x0)`, the sort key of both word sorts in the source. -/
def leTopX0 (a b : Palabra) : Bool :=
  qlt a.top b.top || (a.top == b.top && qle a.x0 b.x0)

/-- `sorted(words, key=lambda ww: (ww["top"], ww["x0"]))`: Python's sort is
stable and stable sorting by a total preorder has a unique result, so
insertion sort by the non-strict key comparison is exactly it. -/
def sortWords (ws : List Palabra) : List Palabra :=
  ws.insertionSort (fun a b => leTopX0 a b = true)

/-- The loop body of `BBVAParser._agrupar_filas`: `current` is the open row,
`ctop` its anchor offset (the row's first word); a word farther than `tol`
from the anchor closes the row and opens a new one. -/
def agruparFilasGo (tol : ℚ) : List Palabra → List Palabra → ℚ → List (List Palabra)
  | [], current, _ => [current]
  | w :: ws, current, ctop =>
    if qlt tol (qabs (qsub w.top ctop)) then current :: agruparFilasGo tol ws [w] w.top
    else agruparFilasGo tol ws (current ++ [w]) ctop

/-- `BBVAParser._agrupar_filas` at tolerance `tol`. -/
def agruparFilasT (tol : ℚ) (words : List Palabra) : List (List Palabra) :=
  match sortWords words with
  | [] => []
  | w :: ws => agruparFilasGo tol ws [w] w.top

/-- `BBVAParser._agrupar_filas` at its default tolerance. -/
def agruparFilas (words : List Palabra) : List (List Palabra) :=
  agruparFilasT tolAgrupar words

/-- The `norm` helper of `BBVAParser._detectar_columnas_montos`: uppercase,
strip, fold the four accented vowels. -/
def normHeader (txt : String) : String :=
  let t := pyStrip (pyUpper txt)
  ⟨t.data.map (fun c =>
    if c = 'Ó' then 'O' else if c = 'Á' then 'A'
    else if c = 'Í' then 'I' else if c = 'Ú' then 'U' else c)⟩

/-- The four canonical column labels (`objetivos`). -/
def objetivos : List String := ["CARGOS", "ABONOS", "OPERACION", "LIQUIDACION"]

/-- A header word retained by the resolver, tagged with its matched label. -/
structure Hit where
  w : Palabra
  k : String
deriving DecidableEq

/-- Step 1 of `_detectar_columnas_montos`: keep only words whose normalized
text is one of the four labels. -/
def headerHits (words : List Palabra) : List Hit :=
  words.filterMap (fun w =>
    let t := normHeader w.text
    if t ∈ objetivos then some ⟨w, t⟩ else none)

/-- Comparison of hits by their word's `(top, x0)`. -/
def leHit (a b : Hit) : Bool := leTopX0 a.w b.w

/-- Step 2 of `_detectar_columnas_montos`: place a hit into the first group
whose anchor (first element) is within `tol` of it, else open a new group. -/
def colocaHit (tol : ℚ) (grupos : List (List Hit)) (h : Hit) : List (List Hit) :=
  match grupos with
  | [] => [[h]]
  | g :: rest =>
    match g.head? with
    | some g0 =>
      if qle (qabs (qsub h.w.top g0.w.top)) tol then (g ++ [h]) :: rest
      else g :: colocaHit tol rest h
    | none => g :: colocaHit tol rest h

/-- The vertical-offset clusters of the header hits, built greedily over the
hits sorted (stably) by `(top, x0)`. -/
def gruposDe (tol : ℚ) (words : List Palabra) : List (List Hit) :=
  ((headerHits words).insertionSort (fun a b => leHit a b = true)).foldl (colocaHit tol) []

/-- Python-dict insertion: replace in place when the key exists, else append
(preserving insertion order). -/
def dictInsert : List (String × ℚ) → String → ℚ → List (String × ℚ)
  | [], k, v => [(k, v)]
  | (k1, v1) :: rest, k, v =>
    if k1 = k then (k, v) :: rest else (k1, v1) :: dictInsert rest k v

/-- The `centers` dict of one candidate group: label to horizontal center of
the group's last word carrying that label. -/
def centersOf (g : List Hit) : List (String × ℚ) :=
  g.foldl (fun acc h => dictInsert acc h.k (centro h.w)) []

/-- Whether a cluster contains all four labels (`objetivos <= keys`). -/
def grupoCompleto (g : List Hit) : Bool :=
  objetivos.all (fun o => g.any (fun h => h.k = o))

/-- Vertical anchor offset of a cluster (`g[0]["top"]`). -/
def anchorTop (g : List Hit) : ℚ :=
  match g.head? with
  | some h => h.w.top
  | none => 0

/-- Step 3 of `_detectar_columnas_montos`: the clusters containing all four
labels, as `(anchor offset, centers)` pairs in cluster order. -/
def candidatosDe (tol : ℚ) (words : List Palabra) : List (ℚ × List (String × ℚ)) :=
  (gruposDe tol words).filterMap (fun g =>
    if grupoCompleto g then some (anchorTop g, centersOf g) else none)

/-- Step 4: first candidate of minimal anchor offset — what the source's
stable sort by offset followed by taking element 0 selects. -/
def argminTop (l : List (ℚ × List (String × ℚ))) : Option (ℚ × List (String × ℚ)) :=
  match l with
  | [] => none
  | c :: rest => some (rest.foldl (fun best x => if qlt x.1 best.1 then x else best) c)

/-- `BBVAParser._detectar_columnas_montos` at tolerance `tol`: the column
centers of the topmost cluster containing all four labels, or `none`. -/
def detectarColumnasMontosT (tol : ℚ) (words : List Palabra) :
    Option (List (String × ℚ)) :=
  if (headerHits words).isEmpty then none
  else (argminTop (candidatosDe tol words)).map Prod.snd

/-- `BBVAParser._detectar_columnas_montos` at its default tolerance. -/
def detectarColumnasMontos (words : List Palabra) : Option (List (String × ℚ)) :=
  detectarColumnasMontosT tolFila words

/-- `BBVAParser._columna_por_x`: the column label whose center is nearest to
`x`; Python's `min` keeps the earliest item on ties.  The centers dict is
never empty at the call sites (the resolver returned it complete); the `[]`
case is unreachable and yields `""`. -/
def columnaPorX (x : ℚ) (colCenters : List (String × ℚ)) : String :=
  match colCenters with
  | [] => ""
  | c :: rest =>
    (rest.foldl (fun best kv =>
      if qlt (qabs (qsub x kv.2)) (qabs (qsub x best.2)) then kv else best) c).1

/-- The per-word amount-assignment loop of `BBVAParser.parse_movimientos`
(lines 156–172): each word matching `PATRON_MONTO` is parsed and stored into
the field of its nearest column, later hits overwriting earlier ones. -/
def asignarMontos (colCenters : List (String × ℚ)) (fila : List Palabra) :
    Option ℚ × Option ℚ × Option ℚ × Option ℚ :=
  fila.foldl (fun acc w =>
    if patronMontoMatch w.text then
      let val := limpiarMontoBBVA w.text
      let col := columnaPorX (centro w) colCenters
      if col = "CARGOS" then (val, acc.2.1, acc.2.2.1, acc.2.2.2)
      else if col = "ABONOS" then (acc.1, val, acc.2.2.1, acc.2.2.2)
      else if col = "OPERACION" then (acc.1, acc.2.1, val, acc.2.2.2)
      else if col = "LIQUIDACION" then (acc.1, acc.2.1, acc.2.2.1, val)
      else acc
    else acc)
    (none, none, none, none)

/-- Whether a row opens a transaction: at least two words fully match
`PATRON_FECHA`. -/
def tieneDosFechas (fila : List Palabra) : Bool :=
  2 ≤ (fila.filter (fun w => patronFechaMatch w.text)).length

/-- Indices of the date-like words of a row (`idx_fechas`). -/
def idxFechas (textos : List String) : List ℕ :=
  (textos.enum.filterMap (fun p => if patronFechaMatch p.2 then some p.1 else none))

/-- The transaction-record construction of the two-dates branch of
`BBVAParser.parse_movimientos` (lines 130–188): first two date tokens are
the operation and settlement dates, the token after the second date is the
code, the description is every word centered left of the charges column that
is not textually one of the consumed tokens, and amounts are assigned per
column. -/
def procesarFilaMov (colCenters : List (String × ℚ)) (anio : Option String)
    (cuenta moneda origen : String) (pagina : ℕ) (fila : List Palabra) : Mov :=
  let textos := fila.map (fun w => w.text)
  let idx := idxFechas textos
  let i1 := idx.getD 0 0
  let i2 := idx.getD 1 0
  let fechaOpRaw := textos.getD i1 ""
  let fechaLiqRaw := textos.getD i2 ""
  let codigo := textos.getD (i2 + 1) ""
  let xCargos := ((colCenters.lookup "CARGOS").getD 0)
  let descWords := fila.filterMap (fun w =>
    if qle xCargos (centro w) then none
    else if w.text = fechaOpRaw ∨ w.text = fechaLiqRaw ∨ w.text = codigo then none
    else some w.text)
  let montos := asignarMontos colCenters fila
  { fechaOperacion := parseFecha fechaOpRaw anio,
    fechaLiquidacion := parseFecha fechaLiqRaw anio,
    codigo := codigo,
    descripcion := pyStrip (String.intercalate " " descWords),
    cargos := montos.1, abonos := montos.2.1,
    saldoOperacion := montos.2.2.1, saldoLiquidacion := montos.2.2.2,
    detalle := "", cuenta := cuenta, moneda := moneda, origenPdf := origen,
    pagina := pagina }

/-- The total-section break test of the row loop (line 123). -/
def esFilaTotal (txtUpper : String) : Bool :=
  strContains txtUpper "TOTAL DE MOVIMIENTOS" || strContains txtUpper "TOTAL MOVIMIENTOS"

/-- Append continuation text to the record at index `i` (the in-place
`movimientos[idx]["detalle"]` update, joined with `" | "`). -/
def actualizarDetalle (movs : List Mov) (i : ℕ) (extra : String) : List Mov :=
  match movs.get? i with
  | none => movs
  | some m =>
    movs.set i { m with detalle := if m.detalle = "" then extra
                                   else m.detalle ++ " | " ++ extra }

/-- The `for fila in filas` loop of `BBVAParser.parse_movimientos`: `idxUlt`
is the `idx_ultimo_mov` reference into the accumulated record list; a
total-section row ends the page; a two-dates row appends a record and becomes
the last opened transaction; any other nonempty row not prefixed
`"FECHA SALDO"` is appended to the last opened transaction's detail, and is
dropped when none is open. -/
def loopFilas (colCenters : List (String × ℚ)) (anio : Option String)
    (cuenta moneda origen : String) (pagina : ℕ) :
    List (List Palabra) → List Mov → Option ℕ → List Mov
  | [], acc, _ => acc
  | fila :: rest, acc, idxUlt =>
    let textoFila := pyStrip (String.intercalate " " (fila.map (fun w => w.text)))
    if textoFila = "" then loopFilas colCenters anio cuenta moneda origen pagina rest acc idxUlt
    else if esFilaTotal (pyUpper textoFila) then acc
    else if tieneDosFechas fila then
      loopFilas colCenters anio cuenta moneda origen pagina rest
        (acc ++ [procesarFilaMov colCenters anio cuenta moneda origen pagina fila])
        (some acc.length)
    else
      match idxUlt with
      | none => loopFilas colCenters anio cuenta moneda origen pagina rest acc none
      | some i =>
        if strStarts textoFila "FECHA SALDO" then
          loopFilas colCenters anio cuenta moneda origen pagina rest acc (some i)
        else
          loopFilas colCenters anio cuenta moneda origen pagina rest
            (actualizarDetalle acc i textoFila) (some i)

/-- The statement-period pattern of `BBVAParser._obtener_anio_desde_portada`:
`DEL\s+\d{2}/\d{2}/(\d{4})\s+AL\s+\d{2}/\d{2}/\d{4}` (searched, unanchored). -/
def rxAnio : RE := reCat [
  reLit 'D', reLit 'E', reLit 'L', reWs1,
  reD 2, reLit '/', reD 2, reLit '/', .grp 1 (reD 4), reWs1,
  reLit 'A', reLit 'L', reWs1,
  reD 2, reLit '/', reD 2, reLit '/', reD 4]

/-- `BBVAParser._obtener_anio_desde_portada`: the year of the first
statement-period phrase of the cover text, or `none`. -/
def obtenerAnioDesdePortada (texto : String) : Option String :=
  (reSearch rxAnio texto.data).map (fun caps => capGet caps 1)

/-- The page loop of `BBVAParser.parse_movimientos` (lines 101–199): skip
page one when it lacks the ledger-header markers, skip pages without a
resolved column layout, and run the row loop with the last-opened-transaction
reference reset to `none` at each page's start. -/
def loopPaginas (anio : Option String) (cuenta moneda origen : String) :
    List (ℕ × Pagina) → List Mov → List Mov
  | [], acc => acc
  | (num, page) :: rest, acc =>
    let txt := pyUpper page.text
    if num = 1 ∧ ¬(strContains txt "CARGOS" ∧ strContains txt "ABONOS") then
      loopPaginas anio cuenta moneda origen rest acc
    else
      match detectarColumnasMontos page.words with
      | none => loopPaginas anio cuenta moneda origen rest acc
      | some colCenters =>
        loopPaginas anio cuenta moneda origen rest
          (loopFilas colCenters anio cuenta moneda origen num
            (agruparFilas page.words) acc none)

/-- `BBVAParser.parse_movimientos`, with the Extraction Adapter abstracted
as the per-page data and the account/currency/source metadata as parameters.
The statement year is read once from the cover page (page one). -/
def parseMovimientosBBVA (cuenta moneda origen : String) (pages : List Pagina) :
    List Mov :=
  let anio := obtenerAnioDesdePortada (match pages.head? with
    | some p => p.text
    | none => "")
  loopPaginas anio cuenta moneda origen (pages.enumFrom 1) []

/-! ### Concrete instances used to exercise the pipeline -/

/-- A header row of the four column labels at centers 100, 200, 300, 400. -/
def hdrPalabras : List Palabra :=
  [⟨"CARGOS", 95, 105, 10⟩, ⟨"ABONOS", 195, 205, 10⟩,
   ⟨"OPERACION", 295, 305, 10⟩, ⟨"LIQUIDACION", 395, 405, 10⟩]

/-- A transaction row: two dates, a code, a description, a charge near the
charges column and a balance near the operation-balance column. -/
def filaMovEj : List Palabra :=
  [⟨"01/JUL", 10, 20, 20⟩, ⟨"02/JUL", 22, 32, 20⟩, ⟨"A1", 34, 38, 20⟩,
   ⟨"COFFEE", 40, 50, 20⟩, ⟨"SHOP", 52, 60, 20⟩,
   ⟨"45.00", 98, 104, 20⟩, ⟨"1000.00", 297, 304, 20⟩]

/-- A continuation row (no date-like words). -/
def filaContEj : List Palabra :=
  [⟨"REF", 40, 50, 24⟩, ⟨"123", 52, 60, 24⟩]

/-- A ledger page holding the header and one transaction row. -/
def paginaEj1 : Pagina := ⟨"CARGOS ABONOS", hdrPalabras ++ filaMovEj⟩

/-- A later page starting with a continuation row only. -/
def paginaEj2 : Pagina := ⟨"PAGE 2", hdrPalabras ++ filaContEj⟩

/-- The record the line-pattern extractor emits for the line
`"01/01/25 02/01/25 A 1234 $ -1.00"` on page 1. -/
def movEjTC : Mov :=
  { fechaOperacion := "2025-01-01", fechaLiquidacion := "2025-01-02",
    codigo := "", descripcion := "A", cargos := none, abonos := some 1,
    saldoOperacion := none, saldoLiquidacion := none, detalle := "REF:1234",
    cuenta := "C", moneda := "MXN", origenPdf := "o", pagina := 1 }

/-- An optional amount that is absent or non-negative. -/
def OptNonNeg (o : Option ℚ) : Prop := ∀ v : ℚ, o = some v → 0 ≤ v

/-- The monetary-field invariant of a record: each of the four monetary
fields (charge, credit, operation balance, settlement balance) is absent or
non-negative. -/
def MovNonNeg (r : Mov) : Prop :=
  OptNonNeg r.cargos ∧ OptNonNeg r.abonos ∧
    OptNonNeg r.saldoOperacion ∧ OptNonNeg r.saldoLiquidacion

/-- A line whose two dates match the date shape but parse to no valid
calendar date. -/
def lineaC6 : String := "99/99/99 88/88/88 A 1234 $ 1.00"

/-- The group values the line matcher extracts from `lineaC6`. -/
def matchC6 : MatchTC :=
  { f1 := "99/99/99", f2 := "88/88/88", concepto := "A", rfc := "",
    ref := "1234", monto := "1.00" }

/-- The record the line-pattern extractor emits for `lineaC6` on page 1:
both unparseable dates are kept as their raw strings. -/
def movC6 : Mov :=
  { fechaOperacion := "99/99/99", fechaLiquidacion := "88/88/88",
    codigo := "", descripcion := "A", cargos := some 1, abonos := none,
    saldoOperacion := none, saldoLiquidacion := none, detalle := "REF:1234",
    cuenta := "C", moneda := "MXN", origenPdf := "o", pagina := 1 }

/-- The record the positional extractor emits for page `paginaEj1`. -/
def movEjBBVA : Mov :=
  { fechaOperacion := "2025-07-01", fechaLiquidacion := "2025-07-02",
    codigo := "A1", descripcion := "COFFEE SHOP", cargos := some 45, abonos := none,
    saldoOperacion := some 1000, saldoLiquidacion := none, detalle := "",
    cuenta := "C", moneda := "MXN", origenPdf := "o", pagina := 1 }

/-- A dated output record (sorts into the dated block). -/
def movOutEj1 : MovOut :=
  { fechaOperacion := "2025-07-22", fechaLiquidacion := some (2025, 7, 23),
    codigo := "", descripcion := "OXXO GAS", cargos := some 399, abonos := none,
    saldoOperacion := none, saldoLiquidacion := none, detalle := "",
    cuenta := "C", moneda := "MXN", origenPdf := "o", pagina := 1 }

/-- An output record with an unparseable (coerced-to-`NaT`) settlement date. -/
def movOutEj2 : MovOut :=
  { fechaOperacion := "99/99/99", fechaLiquidacion := none,
    codigo := "", descripcion := "PAGO TDC", cargos := none, abonos := some 1,
    saldoOperacion := none, saldoLiquidacion := none, detalle := "",
    cuenta := "C", moneda := "MXN", origenPdf := "o", pagina := 2 }

/-! ### Helper lemmas on the string model -/

theorem mem_dropWhile_of_not {c : Char} {p : Char → Bool} (hc : p c = false) :
    ∀ {l : List Char}, c ∈ l → c ∈ l.dropWhile p := by
  intro l hl
  induction l with
  | nil => exact absurd hl (List.not_mem_nil c)
  | cons x xs ih =>
    rw [List.dropWhile_cons]
    by_cases hx : p x = true
    · simp only [hx, if_true]
      rcases List.mem_cons.mp hl with h | h
      · subst h; rw [hc] at hx; exact absurd hx (by simp)
      · exact ih h
    · simp only [hx, if_false]
      exact hl

theorem mem_pyStrip {c : Char} {s : String} (h : c ∈ s.data) (hc : isPySpace c = false) :
    c ∈ (pyStrip s).data := by
  unfold pyStrip
  simp only [List.mem_reverse]
  exact mem_dropWhile_of_not hc (by
    simp only [List.mem_reverse]
    exact mem_dropWhile_of_not hc h)

theorem mem_of_mem_pyStrip {c : Char} {s : String} (h : c ∈ (pyStrip s).data) :
    c ∈ s.data := by
  unfold pyStrip at h
  simp only [List.mem_reverse] at h
  have h1 := List.Sublist.mem h (List.dropWhile_sublist _)
  simp only [List.mem_reverse] at h1
  exact List.Sublist.mem h1 (List.dropWhile_sublist _)

theorem mem_removeChar {c x : Char} {s : String} :
    c ∈ (removeChar x s).data ↔ c ∈ s.data ∧ c ≠ x := by
  unfold removeChar
  simp [List.mem_filter]

theorem removeChar_of_not_mem {x : Char} {s : String} (h : x ∉ s.data) :
    removeChar x s = s := by
  unfold removeChar
  apply String.ext
  show s.data.filter _ = s.data
  rw [List.filter_eq_self]
  intro a ha
  simp only [decide_eq_true_eq]
  intro hax
  exact h (hax ▸ ha)

theorem data_ne_nil_of_mem {c : Char} {s : String} (h : c ∈ s.data) : s ≠ "" := by
  intro he
  rw [he] at h
  exact absurd h (List.not_mem_nil c)

theorem natForce_eq (n : ℕ) : natForce n = n := by cases n <;> rfl

theorem intForce_eq (i : ℤ) : intForce i = i := by
  cases i <;> simp [intForce, natForce_eq]

theorem qmk_eq (n d : ℤ) : qmk n d = Rat.divInt n d := by
  simp [qmk, intForce_eq]

theorem qadd_eq (a b : ℚ) : qadd a b = a + b := by
  rw [qadd, qmk_eq]
  conv_rhs => rw [← Rat.num_divInt_den a, ← Rat.num_divInt_den b]
  rw [Rat.divInt_add_divInt _ _ (Int.natCast_ne_zero.mpr a.den_nz)
    (Int.natCast_ne_zero.mpr b.den_nz)]
  congr 1

theorem qsub_eq (a b : ℚ) : qsub a b = a - b := by
  rw [qsub, qmk_eq]
  conv_rhs => rw [← Rat.num_divInt_den a, ← Rat.num_divInt_den b]
  rw [Rat.divInt_sub_divInt _ _ (Int.natCast_ne_zero.mpr a.den_nz)
    (Int.natCast_ne_zero.mpr b.den_nz)]
  congr 1

theorem qhalf_eq (a : ℚ) : qhalf a = a / 2 := by
  rw [qhalf, qmk_eq, Rat.divInt_eq_div]
  have h2 : ((Int.ofNat (2 * a.den) : ℤ) : ℚ) = (a.den : ℚ) * 2 := by
    simp only [Int.ofNat_eq_natCast]
    push_cast
    ring
  rw [h2]
  conv_rhs => rw [← Rat.num_div_den a]
  rw [div_div]

theorem qlt_iff (a b : ℚ) : qlt a b = true ↔ a < b := Iff.rfl

theorem qle_iff (a b : ℚ) : qle a b = true ↔ a ≤ b := by
  unfold qle
  rw [Bool.not_eq_true']
  exact Iff.rfl

theorem esNeg_iff (a : ℚ) : esNeg a = true ↔ a < 0 := by
  unfold esNeg
  rw [decide_eq_true_eq]
  exact Rat.num_neg

theorem qabs_eq (a : ℚ) : qabs a = |a| := by
  unfold qabs
  by_cases h : a.num < 0
  · rw [if_pos h]
    rw [abs_of_neg (Rat.num_neg.mp h)]
    rfl
  · rw [if_neg h]
    rw [abs_of_nonneg (Rat.num_nonneg.mp (not_lt.mp h))]

end BancosReader

namespace BancosReader

/-! ### C9: the two clustering tolerances -/

/-- C9 counterexample.  The claim asserts that the row grouper's default
tolerance exceeds the column resolver's header-clustering tolerance; in the
source it is the other way around (`tol=2.0` versus `tol_fila=3.0`), so the
claimed inequality fails. -/
theorem c9_tolerancia_counterexample : ¬ (tolFila < tolAgrupar) := by decide

/-- C9 amended: the header-clustering tolerance (3.0) is strictly coarser
than the row-grouping tolerance (2.0); these are exactly the defaults the
row grouper and the column resolver run at. -/
theorem c9_tolerancia_amended :
    tolAgrupar < tolFila ∧
    (∀ ws : List Palabra, agruparFilas ws = agruparFilasT tolAgrupar ws) ∧
    (∀ ws : List Palabra, detectarColumnasMontos ws = detectarColumnasMontosT tolFila ws) :=
  ⟨by decide, fun _ => rfl, fun _ => rfl⟩

/-! ### C3: sign handling of the two amount normalizers -/

/-- C3: the claim states that both variants' amount normalizers preserve a
single leading minus sign as the sign of the value, and the comment above
the positional normalizer says the same ("dejamos el signo como venga"); but
the positional `_limpiar_monto` strips a single leading minus before parsing
(`float(txt.replace("-", ""))`), returning `+5.0` for `"-5.00"`, while the
line-pattern variant returns `-5.0` as claimed. -/
theorem c3_menos_divergencia :
    limpiarMontoBBVA "-5.00" = some 5 ∧ limpiarMontoTC "-5.00" = some (-5) := by
  constructor <;> with_unfolding_all decide

/-! ### C8: separator handling of the amount normalizers -/

/-- C8 counterexample.  The claim's second example `"1.234,56" ↦ 1234.56` is
wrong: that string contains both a comma and a dot, so both normalizers take
the comma-removal branch and parse `"1.23456"`. -/
theorem c8_separadores_counterexample :
    limpiarMontoBBVA "1.234,56" = some 1.23456 ∧
    limpiarMontoTC "1.234,56" = some 1.23456 ∧
    (1.23456 : ℚ) ≠ 1234.56 := by
  refine ⟨?_, ?_, ?_⟩ <;> with_unfolding_all decide

/-- C8 amended: for every string with at least one comma and at least one
dot, both normalizers remove the commas and parse the rest with the dot as
decimal separator (`"1,234.56" ↦ 1234.56`; the positional variant then
applies its sign-and-parse step to the comma-free string); for every string
with a comma but no dot, both normalizers turn the comma into the decimal
separator (`"234,56" ↦ 234.56`); `"1.234,56"` belongs to the first class and
therefore yields `1.23456`, not `1234.56`, in both variants. -/
theorem c8_separadores_amended :
    (∀ s : String, ',' ∈ s.data → '.' ∈ s.data →
      limpiarMontoTC s =
        pyFloat (removeChar ',' (removeChar ' ' (removeChar '$' (pyStrip s)))) ∧
      limpiarMontoBBVA s =
        quitarMenosYParsear (removeChar ',' (removeChar ' ' (removeChar '$' (pyStrip s))))) ∧
    (∀ s : String, ',' ∈ s.data → '.' ∉ s.data →
      limpiarMontoTC s =
        pyFloat (mapChar ',' '.' (removeChar ' ' (removeChar '$' (pyStrip s)))) ∧
      limpiarMontoBBVA s =
        quitarMenosYParsear (mapChar ',' '.' (removeChar ' ' (removeChar '$' (pyStrip s))))) ∧
    limpiarMontoBBVA "1,234.56" = some 1234.56 ∧
    limpiarMontoTC "1,234.56" = some 1234.56 ∧
    limpiarMontoBBVA "234,56" = some 234.56 ∧
    limpiarMontoTC "234,56" = some 234.56 ∧
    limpiarMontoTC "1.234,56" = some 1.23456 ∧
    limpiarMontoBBVA "1.234,56" = some 1.23456 := by
  refine ⟨?_, ?_, by with_unfolding_all decide, by with_unfolding_all decide,
    by with_unfolding_all decide, by with_unfolding_all decide,
    by with_unfolding_all decide, by with_unfolding_all decide⟩
  · intro s hc hd
    have hc1 : ',' ∈ (removeChar ' ' (removeChar '$' (pyStrip s))).data := by
      rw [mem_removeChar]
      refine ⟨?_, by decide⟩
      rw [mem_removeChar]
      exact ⟨mem_pyStrip hc (by decide), by decide⟩
    have hd1 : '.' ∈ (removeChar ' ' (removeChar '$' (pyStrip s))).data := by
      rw [mem_removeChar]
      refine ⟨?_, by decide⟩
      rw [mem_removeChar]
      exact ⟨mem_pyStrip hd (by decide), by decide⟩
    have hne : removeChar ' ' (removeChar '$' (pyStrip s)) ≠ "" := data_ne_nil_of_mem hc1
    have hcs : ',' ∈ (pyStrip s).data := mem_pyStrip hc (by decide)
    have h0 : ¬(pyStrip s = "" ∨ pyStrip s = "-") := by
      rintro (he | he) <;> rw [he] at hcs <;> exact absurd hcs (by decide)
    constructor
    · unfold limpiarMontoTC
      simp [hne, hc1, hd1]
    · unfold limpiarMontoBBVA quitarMenosYParsear
      rw [if_neg h0]
      simp [hc1, hd1]
  · intro s hc hd
    have hc1 : ',' ∈ (removeChar ' ' (removeChar '$' (pyStrip s))).data := by
      rw [mem_removeChar]
      refine ⟨?_, by decide⟩
      rw [mem_removeChar]
      exact ⟨mem_pyStrip hc (by decide), by decide⟩
    have hd1 : '.' ∉ (removeChar ' ' (removeChar '$' (pyStrip s))).data := by
      intro hmem
      rw [mem_removeChar] at hmem
      rcases hmem with ⟨hmem, -⟩
      rw [mem_removeChar] at hmem
      exact hd (mem_of_mem_pyStrip hmem.1)
    have hne : removeChar ' ' (removeChar '$' (pyStrip s)) ≠ "" := data_ne_nil_of_mem hc1
    have hcs : ',' ∈ (pyStrip s).data := mem_pyStrip hc (by decide)
    have h0 : ¬(pyStrip s = "" ∨ pyStrip s = "-") := by
      rintro (he | he) <;> rw [he] at hcs <;> exact absurd hcs (by decide)
    constructor
    · unfold limpiarMontoTC
      simp [hne, hc1, hd1]
      rw [removeChar_of_not_mem hd1]
    · unfold limpiarMontoBBVA quitarMenosYParsear
      rw [if_neg h0]
      simp [hc1, hd1]
      rw [removeChar_of_not_mem hd1]

/-- C8 amended, witnessed at a concrete input of the first (both separators
present) class, for both variants. -/
theorem c8_separadores_amended_witness :
    limpiarMontoTC "1,2.3" =
      pyFloat (removeChar ',' (removeChar ' ' (removeChar '$' (pyStrip "1,2.3")))) ∧
    limpiarMontoBBVA "1,2.3" =
      quitarMenosYParsear (removeChar ',' (removeChar ' ' (removeChar '$' (pyStrip "1,2.3")))) :=
  c8_separadores_amended.1 "1,2.3" (by decide) (by decide)

end BancosReader

namespace BancosReader

/-! ### C7: the final ordering step of the line-pattern variant -/

theorem leKey_total (a b : ℕ × ℕ × ℕ) : leKey a b = true ∨ leKey b a = true := by
  rcases a with ⟨a1, a2, a3⟩
  rcases b with ⟨b1, b2, b3⟩
  simp only [leKey, Bool.or_eq_true, Bool.and_eq_true, Nat.blt_eq, beq_iff_eq, Nat.ble_eq]
  omega

theorem leKey_trans {a b c : ℕ × ℕ × ℕ} (h1 : leKey a b = true) (h2 : leKey b c = true) :
    leKey a c = true := by
  rcases a with ⟨a1, a2, a3⟩
  rcases b with ⟨b1, b2, b3⟩
  rcases c with ⟨c1, c2, c3⟩
  simp only [leKey, Bool.or_eq_true, Bool.and_eq_true, Nat.blt_eq, beq_iff_eq,
    Nat.ble_eq] at h1 h2 ⊢
  omega

theorem sortMovimientosTC_sorted (l : List MovOut) :
    List.Sorted (fun a b => leMov a b = true) (sortMovimientosTC l) := by
  haveI : IsTotal MovOut (fun a b => leMov a b = true) :=
    ⟨fun a b => leKey_total (claveOrden a) (claveOrden b)⟩
  haveI : IsTrans MovOut (fun a b => leMov a b = true) :=
    ⟨fun a b c h1 h2 => leKey_trans h1 h2⟩
  exact List.sorted_insertionSort _ l

/-- C7: the final ordering step of the line-pattern extractor, a stable sort
by (settlement date, page) with unparseable (`NaT`) settlement dates last,
(1) is a no-op on a record list already sorted by that key, and (2) in its
output every record with an unparseable settlement date comes after every
record with a parsed one: once a `none` date appears, all later dates are
`none`. -/
theorem c7_orden_final :
    (∀ l : List MovOut, List.Pairwise (fun a b => leMov a b = true) l →
      sortMovimientosTC l = l) ∧
    (∀ l : List MovOut,
      List.Pairwise (fun a b => a.fechaLiquidacion = none → b.fechaLiquidacion = none)
        (sortMovimientosTC l)) := by
  constructor
  · intro l h
    exact List.Sorted.insertionSort_eq h
  · intro l
    refine (sortMovimientosTC_sorted l).imp ?_
    intro a b hle hnone
    rcases hb : b.fechaLiquidacion with _ | f
    · rfl
    · exfalso
      unfold leMov claveOrden at hle
      rw [hnone, hb] at hle
      simp only [leKey, Bool.or_eq_true, Bool.and_eq_true, Nat.blt_eq, beq_iff_eq,
        Nat.ble_eq] at hle
      omega

/-- C7 witnessed: sorting an already-sorted concrete pair (a dated record,
then an undated one) is a no-op. -/
theorem c7_orden_final_witness :
    sortMovimientosTC [movOutEj1, movOutEj2] = [movOutEj1, movOutEj2] :=
  c7_orden_final.1 [movOutEj1, movOutEj2] (by with_unfolding_all decide)

end BancosReader

namespace BancosReader

/-! ### C1: sign-determined charge/credit in the line-pattern extractor -/

/-- C1: for every line the line-pattern extractor matches and whose amount
parses, exactly one of charge/credit is populated in the emitted record,
fully determined by the sign of the parsed amount `m`: a negative `m`
populates credit with the absolute value `-m` and leaves charge absent; a
non-negative `m` populates charge with `m` and leaves credit absent. -/
theorem c1_signo_cargo_abono :
    ∀ (cuenta moneda origen : String) (pagina : ℕ) (line : String) (r : Mov),
      procesarLineaTC cuenta moneda origen pagina line = some r →
      ∃ (g : MatchTC) (m : ℚ), matchLineaTC line = some g ∧
        limpiarMontoTC g.monto = some m ∧
        ((m < 0 ∧ r.abonos = some (-m) ∧ r.cargos = none) ∨
         (0 ≤ m ∧ r.cargos = some m ∧ r.abonos = none)) := by
  intro cu mo o pag line r h
  unfold procesarLineaTC at h
  cases hg : matchLineaTC line with
  | none => rw [hg] at h; exact absurd h (by simp)
  | some g =>
    rw [hg] at h
    dsimp only at h
    cases hm : limpiarMontoTC g.monto with
    | none => rw [hm] at h; exact absurd h (by simp)
    | some m =>
      rw [hm] at h
      dsimp only at h
      refine ⟨g, m, rfl, hm, ?_⟩
      injection h with h2
      subst h2
      by_cases hneg : esNeg m = true
      · left
        refine ⟨(esNeg_iff m).mp hneg, ?_, ?_⟩
        · show (if esNeg m = true then some (Rat.neg m) else none) = some (-m)
          rw [if_pos hneg]
          rfl
        · show (if esNeg m = true then none else some m) = none
          rw [if_pos hneg]
      · right
        have hnn : 0 ≤ m := not_lt.mp (fun hlt => hneg ((esNeg_iff m).mpr hlt))
        refine ⟨hnn, ?_, ?_⟩
        · show (if esNeg m = true then none else some m) = some m
          rw [if_neg hneg]
        · show (if esNeg m = true then some (Rat.neg m) else none) = none
          rw [if_neg hneg]

/-- C1 witnessed at the concrete line `"01/01/25 02/01/25 A 1234 $ -1.00"`:
the amount is negative, so the record carries credit 1.00 and no charge. -/
theorem c1_signo_cargo_abono_witness :
    ∃ (g : MatchTC) (m : ℚ),
      matchLineaTC "01/01/25 02/01/25 A 1234 $ -1.00" = some g ∧
      limpiarMontoTC g.monto = some m ∧
      ((m < 0 ∧ movEjTC.abonos = some (-m) ∧ movEjTC.cargos = none) ∨
       (0 ≤ m ∧ movEjTC.cargos = some m ∧ movEjTC.abonos = none)) :=
  c1_signo_cargo_abono "C" "MXN" "o" 1 "01/01/25 02/01/25 A 1234 $ -1.00" movEjTC
    (by with_unfolding_all decide)

end BancosReader

namespace BancosReader

/-! ### C5: the stop marker ends the whole document -/

theorem esStopTC_ne_empty {s : String} (hs : esStopTC s = true) : ¬ s = "" := by
  intro he
  rw [he] at hs
  exact absurd hs (by decide)

theorem loopLineasTC_stop (cuenta moneda origen : String) (pagina : ℕ) (s : String)
    (hs : esStopTC s = true) :
    ∀ (l1 l2 l2a : List String) (acc : List Mov),
      loopLineasTC cuenta moneda origen pagina (l1 ++ s :: l2) acc =
        loopLineasTC cuenta moneda origen pagina (l1 ++ s :: l2a) acc ∧
      (loopLineasTC cuenta moneda origen pagina (l1 ++ s :: l2) acc).2 = true := by
  intro l1
  induction l1 with
  | nil =>
    intro l2 l2a acc
    simp only [List.nil_append, loopLineasTC]
    rw [if_neg (esStopTC_ne_empty hs), if_neg (esStopTC_ne_empty hs),
      if_pos hs, if_pos hs]
    exact ⟨rfl, rfl⟩
  | cons a l1 ih =>
    intro l2 l2a acc
    simp only [List.cons_append, loopLineasTC]
    by_cases ha : a = ""
    · rw [if_pos ha, if_pos ha]
      exact ih l2 l2a acc
    · rw [if_neg ha, if_neg ha]
      by_cases hstop : esStopTC a = true
      · rw [if_pos hstop, if_pos hstop]
        exact ⟨rfl, rfl⟩
      · rw [if_neg hstop, if_neg hstop]
        by_cases hskip : esSkipTC (pyUpper a) = true
        · rw [if_pos hskip, if_pos hskip]
          exact ih l2 l2a acc
        · rw [if_neg hskip, if_neg hskip]
          cases hp : procesarLineaTC cuenta moneda origen pagina a with
          | some mov =>
            simp only [hp]
            exact ih l2 l2a (acc ++ [mov])
          | none =>
            simp only [hp]
            exact ih l2 l2a acc

theorem loopPaginasTC_stop (cuenta moneda origen : String) (t t1 : String)
    (l1 l2 l2a : List String) (s : String)
    (ht : pageLines t = l1 ++ s :: l2) (ht1 : pageLines t1 = l1 ++ s :: l2a)
    (hs : esStopTC s = true) :
    ∀ (pref : List (ℕ × String)) (n : ℕ) (suf1 : List (ℕ × String)) (acc : List Mov),
      loopPaginasTC cuenta moneda origen (pref ++ (n, t) :: suf1) acc =
        loopPaginasTC cuenta moneda origen (pref ++ [(n, t1)]) acc := by
  intro pref
  induction pref with
  | nil =>
    intro n suf1 acc
    simp only [List.nil_append, loopPaginasTC]
    rw [ht, ht1]
    rw [if_neg (by simp), if_neg (by simp)]
    obtain ⟨heq, hsnd⟩ := loopLineasTC_stop cuenta moneda origen n s hs l1 l2 l2a acc
    rcases hv : loopLineasTC cuenta moneda origen n (l1 ++ s :: l2) acc with ⟨acc1, b⟩
    rw [hv] at heq hsnd
    simp only at hsnd
    subst hsnd
    rw [← heq]
  | cons ku pref ih =>
    intro n suf1 acc
    rcases ku with ⟨k, u⟩
    show loopPaginasTC cuenta moneda origen ((k, u) :: (pref ++ (n, t) :: suf1)) acc =
      loopPaginasTC cuenta moneda origen ((k, u) :: (pref ++ [(n, t1)])) acc
    unfold loopPaginasTC
    by_cases hemp : (pageLines u).isEmpty = true
    · rw [if_pos hemp, if_pos hemp]
      exact ih n suf1 acc
    · rw [if_neg hemp, if_neg hemp]
      rcases hv : loopLineasTC cuenta moneda origen k (pageLines u) acc with ⟨acc1, b⟩
      cases b
      · exact ih n suf1 acc1
      · rfl

/-- C5: once a (normalized) line containing a stop marker is seen, the whole
document's processing stops: the extractor's output is unchanged no matter
what follows that line — the rest of the stop line's page (`l2` versus
`l2a`) and all later pages (`suf` versus none) contribute no records. -/
theorem c5_corte_documento :
    ∀ (cuenta moneda origen : String) (pp : List String) (t t1 : String)
      (suf : List String) (l1 l2 l2a : List String) (s : String),
      pageLines t = l1 ++ s :: l2 →
      pageLines t1 = l1 ++ s :: l2a →
      esStopTC s = true →
      parseMovimientosTC cuenta moneda origen (pp ++ t :: suf) =
        parseMovimientosTC cuenta moneda origen (pp ++ [t1]) := by
  intro cu mo o pp t t1 suf l1 l2 l2a s ht ht1 hs
  unfold parseMovimientosTC
  rw [List.enumFrom_append, List.enumFrom_append]
  simp only [List.enumFrom]
  rw [loopPaginasTC_stop cu mo o t t1 l1 l2 l2a s ht ht1 hs
    (List.enumFrom 1 pp) (1 + pp.length) (List.enumFrom (1 + pp.length + 1) suf) []]

/-- C5 witnessed on a concrete three-page document: the page after the stop
marker and the tail of the stop page are both discarded. -/
theorem c5_corte_documento_witness :
    parseMovimientosTC "C" "MXN" "o"
      ["01/01/25 02/01/25 A 1234 $ 1.00\nTABLA / GRAFICO DE ESTADO DE CUENTA\n03/01/25 04/01/25 B 5678 $ 2.00",
       "05/01/25 06/01/25 D 4321 $ 3.00"] =
    parseMovimientosTC "C" "MXN" "o"
      ["01/01/25 02/01/25 A 1234 $ 1.00\nTABLA / GRAFICO DE ESTADO DE CUENTA"] :=
  c5_corte_documento "C" "MXN" "o" []
    "01/01/25 02/01/25 A 1234 $ 1.00\nTABLA / GRAFICO DE ESTADO DE CUENTA\n03/01/25 04/01/25 B 5678 $ 2.00"
    "01/01/25 02/01/25 A 1234 $ 1.00\nTABLA / GRAFICO DE ESTADO DE CUENTA"
    ["05/01/25 06/01/25 D 4321 $ 3.00"]
    ["01/01/25 02/01/25 A 1234 $ 1.00"] ["03/01/25 04/01/25 B 5678 $ 2.00"] []
    "TABLA / GRAFICO DE ESTADO DE CUENTA"
    (by with_unfolding_all decide) (by with_unfolding_all decide) (by decide)

end BancosReader

namespace BancosReader

/-! ### C6: unparseable day-first dates in the line-pattern variant -/

theorem splitOnChar_of_not_mem {c : Char} :
    ∀ {l : List Char}, c ∉ l → splitOnChar c l = [l] := by
  intro l
  induction l with
  | nil => intro _; rfl
  | cons x xs ih =>
    intro h
    rw [List.mem_cons, not_or] at h
    unfold splitOnChar
    rw [if_neg (fun he : x = c => h.1 he.symm), ih h.2]

theorem coerceFecha_no_guion {s : String} (h : ('-' : Char) ∉ s.data) :
    coerceFecha s = none := by
  unfold coerceFecha
  rw [splitOnChar_of_not_mem h]

/-- C6 counterexample.  The claim says an unparseable day-first date is
stored as absent/null, not as the raw string, for both dates; but on a line
with the unparseable dates `99/99/99` and `88/88/88` the emitted record
keeps the raw string `"99/99/99"` as its operation date (only the settlement
date ends as null, through the final column coercion). -/
theorem c6_fecha_counterexample :
    (parseMovimientosTC "C" "MXN" "o" ["99/99/99 88/88/88 A 1234 $ 1.00"]).map
      (fun r => (r.fechaOperacion, r.fechaLiquidacion)) = [("99/99/99", none)] := by
  with_unfolding_all decide

/-- C6 amended: on date-parse failure the line-pattern extractor stores the
raw matched string (`_parse_fecha_tc(f) or f`) for both dates in the loop
record; the final `pd.to_datetime(..., errors="coerce")` column step then
turns the raw settlement string (date-shaped, so containing no hyphen) into
null, while the operation date remains the raw string in the output. -/
theorem c6_fecha_amended :
    ∀ (cuenta moneda origen : String) (pagina : ℕ) (line : String)
      (g : MatchTC) (r : Mov),
      matchLineaTC line = some g →
      procesarLineaTC cuenta moneda origen pagina line = some r →
      (parseFechaTC g.f1 = none → r.fechaOperacion = g.f1) ∧
      (parseFechaTC g.f2 = none → r.fechaLiquidacion = g.f2 ∧
        (('-' : Char) ∉ g.f2.data → (movToOut r).fechaLiquidacion = none)) := by
  intro cu mo o pag line g r hg h
  unfold procesarLineaTC at h
  rw [hg] at h
  dsimp only at h
  cases hm : limpiarMontoTC g.monto with
  | none => rw [hm] at h; exact absurd h (by simp)
  | some m =>
    rw [hm] at h
    dsimp only at h
    injection h with h2
    subst h2
    constructor
    · intro hf1
      show (match parseFechaTC g.f1 with | some f => f | none => g.f1) = g.f1
      rw [hf1]
    · intro hf2
      constructor
      · show (match parseFechaTC g.f2 with | some f => f | none => g.f2) = g.f2
        rw [hf2]
      · intro hguion
        show coerceFecha (match parseFechaTC g.f2 with | some f => f | none => g.f2) = none
        rw [hf2]
        exact coerceFecha_no_guion hguion

/-- C6 amended, witnessed at `lineaC6`: the operation date stays the raw
string `"99/99/99"`, the settlement date stays raw in the loop record and is
null after the final coercion. -/
theorem c6_fecha_amended_witness :
    movC6.fechaOperacion = "99/99/99" ∧ movC6.fechaLiquidacion = "88/88/88" ∧
    (movToOut movC6).fechaLiquidacion = none :=
  have h := c6_fecha_amended "C" "MXN" "o" 1 lineaC6 matchC6 movC6
    (by with_unfolding_all decide) (by with_unfolding_all decide)
  ⟨h.1 (by with_unfolding_all decide),
   (h.2 (by with_unfolding_all decide)).1,
   (h.2 (by with_unfolding_all decide)).2 (by decide)⟩

end BancosReader

namespace BancosReader

/-! ### C4: continuation rows do not cross pages in the positional extractor -/

/-- C4 counterexample.  The claim says a continuation row met on a later
page, before any new transaction row of that page, is appended to the
transaction opened on an earlier page.  In this two-page document page 1
opens the `COFFEE SHOP` transaction and page 2 starts with the continuation
row `REF 123`; the transaction's detail stays empty — the row is dropped,
because `idx_ultimo_mov` is reset to `None` inside the page loop. -/
theorem c4_continuacion_counterexample :
    (parseMovimientosBBVA "C" "MXN" "o" [paginaEj1, paginaEj2]).map
      (fun m => (m.descripcion, m.detalle)) = [("COFFEE SHOP", "")] := by
  with_unfolding_all decide

/-- C4 amended: the last-opened-transaction reference is reset to `None` at
the start of each page's row pass, so any prefix of a page's rows made of
continuation rows (nonempty or not, fewer than two date-like tokens, not a
total-section break) — the rows before any new transaction row of that
page — is processed exactly as if it were absent: the accumulated record
list is unchanged and the reference is still `None` when the rest of the
page (which may well open new transactions) is reached.  The continuation
text is appended to no transaction, not even one opened on an earlier
page. -/
theorem c4_continuacion_amended :
    ∀ (colCenters : List (String × ℚ)) (anio : Option String)
      (cuenta moneda origen : String) (pagina : ℕ)
      (pre suf : List (List Palabra)) (acc : List Mov),
      (∀ fila ∈ pre, tieneDosFechas fila = false ∧
        esFilaTotal (pyUpper (pyStrip
          (String.intercalate " " (List.map (fun w => w.text) fila)))) = false) →
      loopFilas colCenters anio cuenta moneda origen pagina (pre ++ suf) acc none =
        loopFilas colCenters anio cuenta moneda origen pagina suf acc none := by
  intro colC anio cu mo o pag pre suf
  induction pre with
  | nil => intro acc _; rfl
  | cons fila rest ih =>
    intro acc hall
    obtain ⟨hfila, htot⟩ := hall fila (List.mem_cons_self fila rest)
    have hrest : ∀ f ∈ rest, tieneDosFechas f = false ∧
        esFilaTotal (pyUpper (pyStrip
          (String.intercalate " " (List.map (fun w => w.text) f)))) = false :=
      fun f hf => hall f (List.mem_cons_of_mem fila hf)
    rw [List.cons_append]
    conv_lhs => unfold loopFilas
    by_cases hemp : pyStrip (String.intercalate " " (List.map (fun w => w.text) fila)) = ""
    · rw [if_pos hemp]
      exact ih acc hrest
    · rw [if_neg hemp]
      rw [if_neg (fun habs => by rw [htot] at habs; exact Bool.noConfusion habs)]
      rw [if_neg (fun habs => by rw [hfila] at habs; exact Bool.noConfusion habs)]
      exact ih acc hrest

/-- C4 amended, witnessed: the continuation row at the head of a later page
is dropped (the earlier page's accumulated record is untouched and the
reference stays `None`) even though a new transaction row follows it on the
same page. -/
theorem c4_continuacion_amended_witness :
    loopFilas [("CARGOS", 100), ("ABONOS", 200), ("OPERACION", 300), ("LIQUIDACION", 400)]
      none "C" "MXN" "o" 2 ([filaContEj] ++ [filaMovEj]) [movEjTC] none =
    loopFilas [("CARGOS", 100), ("ABONOS", 200), ("OPERACION", 300), ("LIQUIDACION", 400)]
      none "C" "MXN" "o" 2 [filaMovEj] [movEjTC] none :=
  c4_continuacion_amended
    [("CARGOS", 100), ("ABONOS", 200), ("OPERACION", 300), ("LIQUIDACION", 400)]
    none "C" "MXN" "o" 2 [filaContEj] [filaMovEj] [movEjTC] (by with_unfolding_all decide)

end BancosReader

namespace BancosReader

/-! ### C2: the column geometry resolver picks the topmost complete cluster -/

theorem foldlMin_spec :
    ∀ (rest : List (ℚ × List (String × ℚ))) (c : ℚ × List (String × ℚ)),
      (List.foldl (fun best x => if qlt x.1 best.1 then x else best) c rest) ∈ c :: rest ∧
      ∀ x ∈ c :: rest,
        (List.foldl (fun best x => if qlt x.1 best.1 then x else best) c rest).1 ≤ x.1 := by
  intro rest
  induction rest with
  | nil =>
    intro c
    refine ⟨List.mem_cons_self c [], ?_⟩
    intro x hx
    rcases List.mem_cons.mp hx with h | h
    · subst h; exact le_refl _
    · exact absurd h (List.not_mem_nil x)
  | cons y rest ih =>
    intro c
    simp only [List.foldl_cons]
    obtain ⟨hmem, hmin⟩ := ih (if qlt y.1 c.1 then y else c)
    have hfc : (if qlt y.1 c.1 then y else c) = y ∨ (if qlt y.1 c.1 then y else c) = c := by
      by_cases hq : qlt y.1 c.1 = true
      · left; rw [if_pos hq]
      · right; rw [if_neg hq]
    have hle_c : (if qlt y.1 c.1 then y else c).1 ≤ c.1 := by
      by_cases hq : qlt y.1 c.1 = true
      · rw [if_pos hq]; exact le_of_lt ((qlt_iff y.1 c.1).mp hq)
      · rw [if_neg hq]
    have hle_y : (if qlt y.1 c.1 then y else c).1 ≤ y.1 := by
      by_cases hq : qlt y.1 c.1 = true
      · rw [if_pos hq]
      · rw [if_neg hq]
        exact not_lt.mp (fun hlt => hq ((qlt_iff y.1 c.1).mpr hlt))
    constructor
    · rcases List.mem_cons.mp hmem with h | h
      · rw [h]
        rcases hfc with h2 | h2 <;> rw [h2]
        · exact List.mem_cons_of_mem c (List.mem_cons_self y rest)
        · exact List.mem_cons_self c (y :: rest)
      · exact List.mem_cons_of_mem c (List.mem_cons_of_mem y h)
    · intro x hx
      have hres_le := hmin (if qlt y.1 c.1 then y else c)
        (List.mem_cons_self (if qlt y.1 c.1 then y else c) rest)
      rcases List.mem_cons.mp hx with h | h
      · subst h; exact le_trans hres_le hle_c
      · rcases List.mem_cons.mp h with h2 | h2
        · subst h2; exact le_trans hres_le hle_y
        · exact hmin x (List.mem_cons_of_mem (if qlt y.1 c.1 then y else c) h2)

theorem argminTop_spec {l : List (ℚ × List (String × ℚ))} {p : ℚ × List (String × ℚ)}
    (h : argminTop l = some p) : p ∈ l ∧ ∀ x ∈ l, p.1 ≤ x.1 := by
  cases l with
  | nil => exact absurd h (by simp [argminTop])
  | cons c rest =>
    unfold argminTop at h
    injection h with h2
    exact h2 ▸ foldlMin_spec rest c

theorem argminTop_eq_none {l : List (ℚ × List (String × ℚ))} :
    argminTop l = none ↔ l = [] := by
  cases l <;> simp [argminTop]

/-- C2: the column geometry resolver discards every vertical-offset cluster
of header words that does not contain all four canonical labels; when it
returns a layout, that layout is the centers dict of a cluster containing
all four labels whose anchor offset is minimal among all such clusters; and
it returns nothing exactly when no cluster contains all four labels. -/
theorem c2_resolver_columnas :
    ∀ words : List Palabra,
      (detectarColumnasMontos words = none ↔
        ∀ g ∈ gruposDe tolFila words, grupoCompleto g = false) ∧
      (∀ c, detectarColumnasMontos words = some c →
        ∃ g ∈ gruposDe tolFila words, grupoCompleto g = true ∧ c = centersOf g ∧
          ∀ g2 ∈ gruposDe tolFila words, grupoCompleto g2 = true →
            anchorTop g ≤ anchorTop g2) := by
  intro words
  unfold detectarColumnasMontos detectarColumnasMontosT
  by_cases hhe : (headerHits words).isEmpty = true
  · rw [if_pos hhe]
    have hgr : gruposDe tolFila words = [] := by
      unfold gruposDe
      rw [List.isEmpty_iff.mp hhe]
      rfl
    constructor
    · rw [hgr]
      simp
    · intro c hc
      exact absurd hc (by simp)
  · rw [if_neg hhe]
    constructor
    · rw [Option.map_eq_none', argminTop_eq_none]
      unfold candidatosDe
      rw [List.filterMap_eq_nil_iff]
      constructor
      · intro hall g hg
        have := hall g hg
        by_cases hcomp : grupoCompleto g = true
        · rw [if_pos hcomp] at this
          exact absurd this (by simp)
        · exact Bool.not_eq_true _ ▸ (Bool.eq_false_iff.mpr hcomp)
      · intro hall g hg
        rw [if_neg (fun habs => by rw [hall g hg] at habs; exact Bool.noConfusion habs)]
    · intro c hc
      rw [Option.map_eq_some'] at hc
      obtain ⟨p, hp, hpc⟩ := hc
      obtain ⟨hmem, hmin⟩ := argminTop_spec hp
      unfold candidatosDe at hmem
      rw [List.mem_filterMap] at hmem
      obtain ⟨g, hg, hfg⟩ := hmem
      by_cases hcomp : grupoCompleto g = true
      · rw [if_pos hcomp] at hfg
        injection hfg with hfg2
        refine ⟨g, hg, hcomp, ?_, ?_⟩
        · rw [← hpc, ← hfg2]
        · intro g2 hg2 hcomp2
          have hx : (anchorTop g2, centersOf g2) ∈ candidatosDe tolFila words := by
            unfold candidatosDe
            rw [List.mem_filterMap]
            exact ⟨g2, hg2, by rw [if_pos hcomp2]⟩
          have := hmin (anchorTop g2, centersOf g2) hx
          rw [← hfg2] at this
          exact this
      · rw [if_neg hcomp] at hfg
        exact absurd hfg (by simp)

/-- C2 witnessed at a concrete header row: the resolver returns the four
centers 100, 200, 300, 400 of the (unique, complete, topmost) cluster. -/
theorem c2_resolver_columnas_witness :
    ∃ g ∈ gruposDe tolFila hdrPalabras, grupoCompleto g = true ∧
      [("CARGOS", (100 : ℚ)), ("ABONOS", 200), ("OPERACION", 300), ("LIQUIDACION", 400)]
        = centersOf g ∧
      ∀ g2 ∈ gruposDe tolFila hdrPalabras, grupoCompleto g2 = true →
        anchorTop g ≤ anchorTop g2 :=
  (c2_resolver_columnas hdrPalabras).2
    [("CARGOS", (100 : ℚ)), ("ABONOS", 200), ("OPERACION", 300), ("LIQUIDACION", 400)]
    (by with_unfolding_all decide)

end BancosReader

namespace BancosReader

/-! ### C10: the positional extractor stores no negative monetary value -/

theorem patronMonto_no_minus {s : String} (h : patronMontoMatch s = true) :
    ('-' : Char) ∉ s.data := by
  intro hmem
  rw [← List.mem_reverse] at hmem
  unfold patronMontoMatch at h
  split at h
  case h_2 => exact Bool.noConfusion h
  case h_1 d2 d1 front heq =>
    rw [heq] at hmem
    simp only [Bool.and_eq_true] at h
    rcases List.mem_cons.mp hmem with h1 | h1
    · rw [← h1] at h
      exact absurd h.1.1.2 (by decide)
    rcases List.mem_cons.mp h1 with h2 | h2
    · rw [← h2] at h
      exact absurd h.1.1.1 (by decide)
    rcases List.mem_cons.mp h2 with h3 | h3
    · exact absurd h3 (by decide)
    · have := List.all_eq_true.mp h.2 ('-' : Char) h3
      exact absurd this (by decide)

theorem decValue_false_nonneg (ip fp : List Char) : 0 ≤ decValue false ip fp := by
  unfold decValue
  rw [qmk_eq]
  exact Rat.divInt_nonneg (by exact Int.ofNat_nonneg _) (by exact Int.ofNat_nonneg _)

theorem pyFloat_nonneg_of_no_minus {s : String} (h : ('-' : Char) ∉ s.data) :
    ∀ v : ℚ, pyFloat s = some v → 0 ≤ v := by
  intro v hv
  have hhead : ¬ (s.data.head? = some '-') := by
    intro habs
    cases hd : s.data with
    | nil => rw [hd] at habs; exact Option.noConfusion habs
    | cons c t =>
      rw [hd] at habs
      injection habs with habs2
      rw [hd, habs2] at h
      exact h (List.mem_cons_self _ _)
  unfold pyFloat at hv
  rw [decide_eq_false hhead] at hv
  dsimp only at hv
  generalize (if s.data.head? = some '-' ∨ s.data.head? = some '+' then s.data.tail
    else s.data) = B at hv
  split at hv
  · split at hv
    · exact Option.noConfusion hv
    · injection hv with hv2
      rw [← hv2]
      exact decValue_false_nonneg _ _
  · split at hv
    · injection hv with hv2
      rw [← hv2]
      exact decValue_false_nonneg _ _
    · exact Option.noConfusion hv
  · exact Option.noConfusion hv

theorem no_minus_pyStrip {s : String} (h : ('-' : Char) ∉ s.data) :
    ('-' : Char) ∉ (pyStrip s).data :=
  fun hm => h (mem_of_mem_pyStrip hm)

theorem no_minus_removeChar {x : Char} {s : String} (h : ('-' : Char) ∉ s.data) :
    ('-' : Char) ∉ (removeChar x s).data :=
  fun hm => h (mem_removeChar.mp hm).1

theorem no_minus_mapChar {s : String} (h : ('-' : Char) ∉ s.data) :
    ('-' : Char) ∉ (mapChar ',' '.' s).data := by
  intro hm
  unfold mapChar at hm
  rw [List.mem_map] at hm
  obtain ⟨c, hc, he⟩ := hm
  by_cases hcc : c = ','
  · rw [if_pos hcc] at he
    exact absurd he (by decide)
  · rw [if_neg hcc] at he
    exact h (he ▸ hc)

theorem no_minus_seleccionSep {t : String} (h : ('-' : Char) ∉ t.data) :
    ('-' : Char) ∉ (if t.data.contains ',' && t.data.contains '.' then removeChar ',' t
      else if t.data.contains ',' && !(t.data.contains '.') then
        mapChar ',' '.' (removeChar '.' t)
      else t).data := by
  split
  · exact no_minus_removeChar h
  · split
    · exact no_minus_mapChar (no_minus_removeChar h)
    · exact h

theorem pyFloat_rama_nonneg {t : String} (h : ('-' : Char) ∉ t.data) :
    ∀ v : ℚ, (if t.data.count '-' = 1 ∧ strStarts t "-" then pyFloat (removeChar '-' t)
      else pyFloat t) = some v → 0 ≤ v := by
  intro v hv
  split at hv
  · exact pyFloat_nonneg_of_no_minus (no_minus_removeChar h) v hv
  · exact pyFloat_nonneg_of_no_minus h v hv

theorem limpiarMontoBBVA_nonneg_of_no_minus {s : String} (h : ('-' : Char) ∉ s.data) :
    ∀ v : ℚ, limpiarMontoBBVA s = some v → 0 ≤ v := by
  intro v hv
  unfold limpiarMontoBBVA at hv
  by_cases h0 : pyStrip s = "" ∨ pyStrip s = "-"
  · rw [if_pos h0] at hv
    exact Option.noConfusion hv
  · rw [if_neg h0] at hv
    dsimp only at hv
    exact pyFloat_rama_nonneg (no_minus_seleccionSep
      (no_minus_removeChar (no_minus_removeChar (no_minus_pyStrip h)))) v hv

theorem limpiarMontoBBVA_patron_nonneg {s : String} (h : patronMontoMatch s = true) :
    OptNonNeg (limpiarMontoBBVA s) :=
  fun v hv => limpiarMontoBBVA_nonneg_of_no_minus (patronMonto_no_minus h) v hv

theorem asignarMontos_nonneg (colCenters : List (String × ℚ)) :
    ∀ (fila : List Palabra) (init : Option ℚ × Option ℚ × Option ℚ × Option ℚ),
      OptNonNeg init.1 → OptNonNeg init.2.1 → OptNonNeg init.2.2.1 → OptNonNeg init.2.2.2 →
      OptNonNeg (fila.foldl (fun acc w =>
        if patronMontoMatch w.text then
          let val := limpiarMontoBBVA w.text
          let col := columnaPorX (centro w) colCenters
          if col = "CARGOS" then (val, acc.2.1, acc.2.2.1, acc.2.2.2)
          else if col = "ABONOS" then (acc.1, val, acc.2.2.1, acc.2.2.2)
          else if col = "OPERACION" then (acc.1, acc.2.1, val, acc.2.2.2)
          else if col = "LIQUIDACION" then (acc.1, acc.2.1, acc.2.2.1, val)
          else acc
        else acc) init).1 ∧
      OptNonNeg (fila.foldl (fun acc w =>
        if patronMontoMatch w.text then
          let val := limpiarMontoBBVA w.text
          let col := columnaPorX (centro w) colCenters
          if col = "CARGOS" then (val, acc.2.1, acc.2.2.1, acc.2.2.2)
          else if col = "ABONOS" then (acc.1, val, acc.2.2.1, acc.2.2.2)
          else if col = "OPERACION" then (acc.1, acc.2.1, val, acc.2.2.2)
          else if col = "LIQUIDACION" then (acc.1, acc.2.1, acc.2.2.1, val)
          else acc
        else acc) init).2.1 ∧
      OptNonNeg (fila.foldl (fun acc w =>
        if patronMontoMatch w.text then
          let val := limpiarMontoBBVA w.text
          let col := columnaPorX (centro w) colCenters
          if col = "CARGOS" then (val, acc.2.1, acc.2.2.1, acc.2.2.2)
          else if col = "ABONOS" then (acc.1, val, acc.2.2.1, acc.2.2.2)
          else if col = "OPERACION" then (acc.1, acc.2.1, val, acc.2.2.2)
          else if col = "LIQUIDACION" then (acc.1, acc.2.1, acc.2.2.1, val)
          else acc
        else acc) init).2.2.1 ∧
      OptNonNeg (fila.foldl (fun acc w =>
        if patronMontoMatch w.text then
          let val := limpiarMontoBBVA w.text
          let col := columnaPorX (centro w) colCenters
          if col = "CARGOS" then (val, acc.2.1, acc.2.2.1, acc.2.2.2)
          else if col = "ABONOS" then (acc.1, val, acc.2.2.1, acc.2.2.2)
          else if col = "OPERACION" then (acc.1, acc.2.1, val, acc.2.2.2)
          else if col = "LIQUIDACION" then (acc.1, acc.2.1, acc.2.2.1, val)
          else acc
        else acc) init).2.2.2 := by
  intro fila
  induction fila with
  | nil =>
    intro init h1 h2 h3 h4
    exact ⟨h1, h2, h3, h4⟩
  | cons w rest ih =>
    intro init h1 h2 h3 h4
    rw [List.foldl_cons]
    by_cases hp : patronMontoMatch w.text = true
    · rw [if_pos hp]
      have hval := limpiarMontoBBVA_patron_nonneg hp
      by_cases hc1 : columnaPorX (centro w) colCenters = "CARGOS"
      · rw [if_pos hc1]
        exact ih _ hval h2 h3 h4
      · rw [if_neg hc1]
        by_cases hc2 : columnaPorX (centro w) colCenters = "ABONOS"
        · rw [if_pos hc2]
          exact ih _ h1 hval h3 h4
        · rw [if_neg hc2]
          by_cases hc3 : columnaPorX (centro w) colCenters = "OPERACION"
          · rw [if_pos hc3]
            exact ih _ h1 h2 hval h4
          · rw [if_neg hc3]
            by_cases hc4 : columnaPorX (centro w) colCenters = "LIQUIDACION"
            · rw [if_pos hc4]
              exact ih _ h1 h2 h3 hval
            · rw [if_neg hc4]
              exact ih _ h1 h2 h3 h4
    · rw [if_neg hp]
      exact ih _ h1 h2 h3 h4

theorem procesarFilaMov_nonneg (colCenters : List (String × ℚ)) (anio : Option String)
    (cuenta moneda origen : String) (pagina : ℕ) (fila : List Palabra) :
    MovNonNeg (procesarFilaMov colCenters anio cuenta moneda origen pagina fila) := by
  have h := asignarMontos_nonneg colCenters fila (none, none, none, none)
    (fun v hv => Option.noConfusion hv) (fun v hv => Option.noConfusion hv)
    (fun v hv => Option.noConfusion hv) (fun v hv => Option.noConfusion hv)
  exact ⟨h.1, h.2.1, h.2.2.1, h.2.2.2⟩

theorem actualizarDetalle_nonneg {movs : List Mov} {i : ℕ} {extra : String}
    (h : ∀ r ∈ movs, MovNonNeg r) :
    ∀ r ∈ actualizarDetalle movs i extra, MovNonNeg r := by
  unfold actualizarDetalle
  cases hg : movs.get? i with
  | none => exact h
  | some m =>
    intro r hr
    rcases List.mem_or_eq_of_mem_set hr with h1 | h1
    · exact h r h1
    · subst h1
      exact h m (List.get?_mem hg)

theorem loopFilas_nonneg (colCenters : List (String × ℚ)) (anio : Option String)
    (cuenta moneda origen : String) (pagina : ℕ) :
    ∀ (filas : List (List Palabra)) (acc : List Mov) (idx : Option ℕ),
      (∀ r ∈ acc, MovNonNeg r) →
      ∀ r ∈ loopFilas colCenters anio cuenta moneda origen pagina filas acc idx,
        MovNonNeg r := by
  intro filas
  induction filas with
  | nil => intro acc idx h; exact h
  | cons fila rest ih =>
    intro acc idx h
    unfold loopFilas
    by_cases hemp : pyStrip (String.intercalate " " (List.map (fun w => w.text) fila)) = ""
    · rw [if_pos hemp]
      exact ih acc idx h
    · rw [if_neg hemp]
      by_cases htot : esFilaTotal (pyUpper (pyStrip
          (String.intercalate " " (List.map (fun w => w.text) fila)))) = true
      · rw [if_pos htot]
        exact h
      · rw [if_neg htot]
        by_cases hdf : tieneDosFechas fila = true
        · rw [if_pos hdf]
          refine ih _ _ ?_
          intro r hr
          rcases List.mem_append.mp hr with h1 | h1
          · exact h r h1
          · rcases List.mem_singleton.mp h1 with rfl
            exact procesarFilaMov_nonneg colCenters anio cuenta moneda origen pagina fila
        · rw [if_neg hdf]
          cases idx with
          | none => exact ih acc none h
          | some i =>
            dsimp only
            by_cases hfs : strStarts (pyStrip
                (String.intercalate " " (List.map (fun w => w.text) fila))) "FECHA SALDO" = true
            · rw [if_pos hfs]
              exact ih acc (some i) h
            · rw [if_neg hfs]
              exact ih _ (some i) (actualizarDetalle_nonneg h)

theorem loopPaginas_nonneg (anio : Option String) (cuenta moneda origen : String) :
    ∀ (pages : List (ℕ × Pagina)) (acc : List Mov),
      (∀ r ∈ acc, MovNonNeg r) →
      ∀ r ∈ loopPaginas anio cuenta moneda origen pages acc, MovNonNeg r := by
  intro pages
  induction pages with
  | nil => intro acc h; exact h
  | cons np rest ih =>
    intro acc h
    rcases np with ⟨num, page⟩
    unfold loopPaginas
    by_cases hskip : num = 1 ∧ ¬(strContains (pyUpper page.text) "CARGOS" = true ∧
        strContains (pyUpper page.text) "ABONOS" = true)
    · rw [if_pos hskip]
      exact ih acc h
    · rw [if_neg hskip]
      cases hdet : detectarColumnasMontos page.words with
      | none => exact ih acc h
      | some colCenters =>
        exact ih _ (loopFilas_nonneg colCenters anio cuenta moneda origen num
          (agruparFilas page.words) acc none h)

/-- C10: in the positional extractor every monetary field of every emitted
record is absent or non-negative.  Supporting facts: the monetary-token
pattern `PATRON_MONTO` admits no minus sign, and `_limpiar_monto` can only
return a non-negative value on minus-free input, so no negative amount can
ever be stored by the positional variant. -/
theorem c10_sin_negativos :
    (∀ s : String, patronMontoMatch s = true → ('-' : Char) ∉ s.data) ∧
    (∀ (s : String) (v : ℚ), ('-' : Char) ∉ s.data → limpiarMontoBBVA s = some v → 0 ≤ v) ∧
    (∀ (cuenta moneda origen : String) (pages : List Pagina) (r : Mov),
      r ∈ parseMovimientosBBVA cuenta moneda origen pages → MovNonNeg r) := by
  refine ⟨fun s hs => patronMonto_no_minus hs,
    fun s v hs hv => limpiarMontoBBVA_nonneg_of_no_minus hs v hv, ?_⟩
  intro cu mo o pages r hr
  unfold parseMovimientosBBVA at hr
  exact loopPaginas_nonneg _ cu mo o (pages.enumFrom 1) []
    (fun r hr2 => absurd hr2 (List.not_mem_nil r)) r hr

/-- C10 witnessed: the concrete ledger page yields the `COFFEE SHOP` record,
whose charge 45.00 the theorem shows non-negative. -/
theorem c10_sin_negativos_witness : (0 : ℚ) ≤ 45 :=
  (c10_sin_negativos.2.2 "C" "MXN" "o" [paginaEj1] movEjBBVA
    (by with_unfolding_all decide)).1 45 (by with_unfolding_all decide)

end BancosReader
